import Mathlib

/-!
Verification of the MoMo SMS ETL pipeline of this repository
(`src/etl/parse_xml.py`, `src/etl/clean_normalize.py`, `src/etl/categorize.py`,
`src/etl/load_db.py`, `src/etl/config.py`) as a shallow embedding in Lean.

Conventions of the embedding:
* Python floats are modelled as rationals (`Rat`); the amounts handled by the
  pipeline are exact decimals, so no rounding behaviour is lost.
* Python dictionaries with a fixed key set are modelled as structures whose
  fields are `Option`-typed (`none` models both Python `None` values).
* Heterogeneous raw field values (`None` / `str` / number) are modelled by the
  sum type `Value`.
* SQLite tables are modelled as lists of rows; `INSERT OR REPLACE` deletes the
  conflicting rows and appends the fresh row, and SQL `NULL` never compares
  equal to anything (`sqlEq`).
* Calls to `datetime.now()` are modelled by an explicit `now : String`
  parameter threaded through the stages.
* Behaviour of third-party / standard-library functions that is not part of
  this repository (dateutil's free-text parser, `datetime.fromtimestamp`,
  `datetime.fromisoformat`, unicode NFKC normalization) is modelled by
  explicit partial models; each carries a doc comment stating the
  approximation.  No claim below depends on the unmodelled corners.
-/

/-- Python whitespace characters recognised by `str.strip` and `\s` (ASCII). -/
def isPySpace (c : Char) : Bool :=
  c == ' ' || c == '\t' || c == '\n' || c == '\r' || c == '\x0b' || c == '\x0c'

/-- Characters of a string, as a list. -/
def chars (s : String) : List Char := s.toList

/-- String built from a list of characters. -/
def ofChars (cs : List Char) : String := String.mk cs

/-- Model of Python `str.strip()`: drop leading and trailing whitespace. -/
def pyStrip (s : String) : String :=
  ofChars (((chars s).dropWhile isPySpace).reverse.dropWhile isPySpace).reverse

/-- Model of Python `str.lower()` (ASCII case folding). -/
def pyLower (s : String) : String := ofChars ((chars s).map Char.toLower)

/-- Model of Python `s.startswith(pre)`. -/
def pyStartsWith (s pre : String) : Bool := (chars pre).isPrefixOf (chars s)

/-- Model of Python slicing `s[n:]`. -/
def strDrop (s : String) (n : Nat) : String := ofChars ((chars s).drop n)

/-- Model of Python slicing `s[a:b]`. -/
def strSlice (s : String) (a b : Nat) : String :=
  ofChars (((chars s).drop a).take (b - a))

/-- Helper for Python's substring test `needle in hay`, over char lists. -/
def subListOf (n : List Char) : List Char → Bool
  | [] => n.isEmpty
  | c :: t => n.isPrefixOf (c :: t) || subListOf n t

/-- Model of Python's substring test `needle in hay`. -/
def containsSub (hay needle : String) : Bool := subListOf (chars needle) (chars hay)

/-- Python scalar values as they occur in raw transaction dictionaries:
`None`, strings, and numbers (ints/floats, modelled as `Rat`). -/
inductive Value where
  | vnone : Value
  | vstr : String → Value
  | vnum : Rat → Value
deriving DecidableEq

/-- Python truthiness of a raw value: `None`, `""` and `0` are falsy. -/
def truthy : Value → Bool
  | .vnone => false
  | .vstr s => decide (s ≠ "")
  | .vnum q => decide (q ≠ 0)

/-- Partial model of Python `str(v)` on scalar values.  On strings it is the
identity (the only case exercised by the theorems below); on numbers it is a
simplified float repr; `None` never reaches it in the modelled code paths. -/
def pyStr : Value → String
  | .vnone => "None"
  | .vstr s => s
  | .vnum q => if q.den = 1 then toString q.num ++ ".0" else toString q.num ++ "/" ++ toString q.den

/-- Python truthiness of an optional string (dict value that is `None` or a string). -/
def truthyS : Option String → Bool
  | none => false
  | some s => decide (s ≠ "")

/-- Python truthiness of an optional number. -/
def truthyN : Option Rat → Bool
  | none => false
  | some q => decide (q ≠ 0)

/-- Configured country dial code (`config.COUNTRY_DIAL_CODE`, Rwanda). -/
def COUNTRY_DIAL_CODE : String := "+250"

/-- Model of Python `str.lstrip("+")`: drop all leading plus signs. -/
def lstripPlus (s : String) : String := ofChars ((chars s).dropWhile (fun c => c == '+'))

/-- Characters kept by the amount-cleaning regex `[^\d.-]` of
`DataCleaner._normalize_amount`: digits, dot and minus. -/
def isAmountChar (c : Char) : Bool := c.isDigit || c == '.' || c == '-'

/-- Apply the regex `re.sub(r"[^\d.-]", "", s)` of `_normalize_amount`. -/
def stripAmount (s : String) : String := ofChars ((chars s).filter isAmountChar)

/-- Numeric value of a digit list (most significant first). -/
def digitsVal (cs : List Char) : Nat := cs.foldl (fun n c => 10 * n + (c.toNat - 48)) 0

/-- Unsigned part of Python `float(s)` over digit/dot character lists: a
nonempty run of digits with at most one dot and at least one digit parses to
its exact decimal value; anything else (including any `-`) is rejected. -/
def pyFloatMag (cs : List Char) : Option Rat :=
  if cs.all (fun c => c.isDigit || c == '.') ∧ cs.count '.' ≤ 1 ∧ cs.any Char.isDigit then
    let intPart := cs.takeWhile (fun c => c ≠ '.')
    let fracPart := (cs.dropWhile (fun c => c ≠ '.')).drop 1
    some (mkRat (digitsVal (intPart ++ fracPart)) ((10 : Nat) ^ fracPart.length))
  else none

/-- Model of Python `float(s)` restricted to strings over digits, `.` and `-`
(the only strings the cleaned amount can contain).  Python accepts one
optional leading sign (`float("-5") = -5.0`) followed by a digit/dot
magnitude, and rejects a `-` anywhere else; the numeric value is exact here
because inputs are decimals. -/
def pyFloat (s : String) : Option Rat :=
  if pyStartsWith s "-" then (pyFloatMag ((chars s).drop 1)).map (fun q => -q)
  else pyFloatMag (chars s)

/-- Embedding of `DataCleaner._normalize_amount`: numbers pass through as
floats; strings are stripped to digits/dot/minus and parsed, with an explicit
branch negating the value when the cleaned string starts with `-`;
anything unparseable yields `None`. -/
def normalize_amount : Value → Option Rat
  | .vnone => none
  | .vnum q => some q
  | .vstr s =>
    let amount_str := pyStrip s
    let cleaned := stripAmount amount_str
    if pyStartsWith cleaned "-" then (pyFloat (strDrop cleaned 1)).map (fun q => -q)
    else pyFloat cleaned

/-- Characters kept by the phone-cleaning regex `[^\d+]` of
`_normalize_phone` and `_extract_phone`: digits and plus. -/
def isPhoneChar (c : Char) : Bool := c.isDigit || c == '+'

/-- Apply the regex `re.sub(r"[^\d+]", "", s)` of the phone normalizers. -/
def stripPhone (s : String) : String := ofChars ((chars s).filter isPhoneChar)

/-- Embedding of `DataCleaner._normalize_phone`: strip to digits/plus, then
try, in order, the configured-dial-code branches; unrecognised shapes yield
`None`. -/
def normalize_phone (v : Value) : Option String :=
  if truthy v = false then none else
  let phone_str := pyStrip (pyStr v)
  let cleaned := stripPhone phone_str
  if pyStartsWith cleaned COUNTRY_DIAL_CODE then some cleaned
  else if pyStartsWith cleaned (lstripPlus COUNTRY_DIAL_CODE) then some ("+" ++ cleaned)
  else if pyStartsWith cleaned "0" then some (COUNTRY_DIAL_CODE ++ strDrop cleaned 1)
  else if cleaned.length = 9 then some (COUNTRY_DIAL_CODE ++ cleaned)
  else if cleaned.length = 10 ∧ pyStartsWith cleaned "0" then
    some (COUNTRY_DIAL_CODE ++ strDrop cleaned 1)
  else none

/-- Embedding of `MoMoXMLParser._extract_phone` after the text lookup: given
the extracted phone text (or `None`), strip to digits/plus and force the
hard-coded Ghana format (`0…` becomes `+233…`, `233…` gains a `+`). -/
def extract_phone (phone_text : Option String) : Option String :=
  match phone_text with
  | none => none
  | some s =>
    let phone := stripPhone s
    let phone :=
      if pyStartsWith phone "0" then "+233" ++ strDrop phone 1
      else if pyStartsWith phone "233" ∧ ¬ pyStartsWith phone "+233" then "+" ++ phone
      else phone
    if phone = "" then none else some phone

/-- Calendar date and time of day, the result of a successful date parse. -/
structure DT where
  year : Nat
  month : Nat
  day : Nat
  hour : Nat
  minute : Nat
  second : Nat
deriving DecidableEq

/-- Gregorian leap-year test. -/
def isLeap (y : Nat) : Bool := y % 4 == 0 && (y % 100 != 0 || y % 400 == 0)

/-- Number of days of a month. -/
def daysInMonth (y m : Nat) : Nat :=
  if m = 2 then (if isLeap y then 29 else 28)
  else if m = 4 ∨ m = 6 ∨ m = 9 ∨ m = 11 then 30 else 31

/-- Validity of a parsed date-time, as enforced by Python's `datetime`
constructor (years 1..9999, real calendar days, 24h clock). -/
def validDT (dt : DT) : Bool :=
  decide (1 ≤ dt.year ∧ dt.year ≤ 9999 ∧ 1 ≤ dt.month ∧ dt.month ≤ 12 ∧
    1 ≤ dt.day ∧ dt.day ≤ daysInMonth dt.year dt.month ∧
    dt.hour ≤ 23 ∧ dt.minute ≤ 59 ∧ dt.second ≤ 59)

/-- Decimal digit character of a value below 10. -/
def digitChar (n : Nat) : Char := Char.ofNat (48 + n)

/-- Two-digit zero-padded decimal rendering (values below 100). -/
def pad2 (n : Nat) : String := ofChars [digitChar (n / 10 % 10), digitChar (n % 10)]

/-- Four-digit zero-padded decimal rendering (values below 10000). -/
def pad4 (n : Nat) : String :=
  ofChars [digitChar (n / 1000 % 10), digitChar (n / 100 % 10),
    digitChar (n / 10 % 10), digitChar (n % 10)]

/-- Model of `datetime.isoformat()` for whole-second datetimes:
`YYYY-MM-DDTHH:MM:SS`. -/
def isoOfDT (dt : DT) : String :=
  pad4 dt.year ++ "-" ++ pad2 dt.month ++ "-" ++ pad2 dt.day ++ "T" ++
  pad2 dt.hour ++ ":" ++ pad2 dt.minute ++ ":" ++ pad2 dt.second

/-- Parse a nonempty all-digit character list. -/
def natOfDigits? (cs : List Char) : Option Nat :=
  if cs ≠ [] ∧ cs.all Char.isDigit then some (digitsVal cs) else none

/-- Parse a 1-2 digit field. -/
def nat12? (cs : List Char) : Option Nat :=
  if cs.length = 1 ∨ cs.length = 2 then natOfDigits? cs else none

/-- Parse an exactly-4-digit field. -/
def nat4? (cs : List Char) : Option Nat :=
  if cs.length = 4 then natOfDigits? cs else none

/-- Structural splitter at a separator character (the model of Python
`str.split(sep)` / `String.splitOn` used by the date parsers). -/
def splitOnChar (sep : Char) : List Char → List (List Char)
  | [] => [[]]
  | c :: t =>
    match splitOnChar sep t with
    | [] => [[]]
    | h :: r => if c == sep then [] :: h :: r else (c :: h) :: r

/-- Parse `YYYY-M-D` (year four digits, month/day one or two). -/
def parseYMD (s : String) : Option (Nat × Nat × Nat) :=
  match splitOnChar '-' (chars s) with
  | [ys, ms, ds] => do
    let y ← nat4? ys
    let m ← nat12? ms
    let d ← nat12? ds
    some (y, m, d)
  | _ => none

/-- Parse `H:M` or `H:M:S` (each field one or two digits). -/
def parseHMS (s : String) : Option (Nat × Nat × Nat) :=
  match splitOnChar ':' (chars s) with
  | [hs, ms] => do
    let h ← nat12? hs
    let m ← nat12? ms
    some (h, m, 0)
  | [hs, ms, ss] => do
    let h ← nat12? hs
    let m ← nat12? ms
    let sec ← nat12? ss
    some (h, m, sec)
  | _ => none

/-- Split a string at its first space or `T`, if any. -/
def splitDateTime (s : String) : String × Option String :=
  let cs := chars s
  let dPart := cs.takeWhile (fun c => ¬(c == ' ' || c == 'T'))
  match cs.dropWhile (fun c => ¬(c == ' ' || c == 'T')) with
  | [] => (ofChars dPart, none)
  | _ :: t => (ofChars dPart, some (ofChars t))

/-- Model of the third-party `dateutil.parser.parse`, which the repository
calls first in `_normalize_date` but does not contain.  The model accepts the
ISO-like shapes `YYYY-M-D`, optionally followed by one space or `T` and a
time `H:M[:S]`, and rejects everything else; the real parser accepts more
free-text shapes, but the explicit-format and regex fallbacks that follow it
in `_normalize_date` cover the additional shapes exercised anywhere below, so
no theorem depends on the difference. -/
def dateutil_parse (s : String) : Option DT :=
  let (d, t?) := splitDateTime s
  (parseYMD d).bind fun ymd =>
    match t? with
    | none =>
      let dt : DT := ⟨ymd.1, ymd.2.1, ymd.2.2, 0, 0, 0⟩
      if validDT dt then some dt else none
    | some ts =>
      (parseHMS ts).bind fun hms =>
        let dt : DT := ⟨ymd.1, ymd.2.1, ymd.2.2, hms.1, hms.2.1, hms.2.2⟩
        if validDT dt then some dt else none

/-- Configured explicit date templates (`config.DATE_FORMATS`). -/
def DATE_FORMATS : List String :=
  ["%Y-%m-%d %H:%M:%S", "%Y-%m-%dT%H:%M:%S", "%d/%m/%Y %H:%M", "%d-%m-%Y %H:%M", "%Y-%m-%d"]

/-- Split at the first occurrence of a separator character, requiring one. -/
def splitOnce (sep : Char) (s : String) : Option (String × String) :=
  let cs := chars s
  match cs.dropWhile (fun c => c != sep) with
  | [] => none
  | _ :: t => some (ofChars (cs.takeWhile (fun c => c != sep)), ofChars t)

/-- Parse `D<sep>M<sep>YYYY` (day/month one or two digits, year four). -/
def parseDMY (sep : Char) (s : String) : Option (Nat × Nat × Nat) :=
  match splitOnChar sep (chars s) with
  | [ds, ms, ys] => do
    let d ← nat12? ds
    let m ← nat12? ms
    let y ← nat4? ys
    some (y, m, d)
  | _ => none

/-- Parse `H:M` exactly (two fields). -/
def parseHM (s : String) : Option (Nat × Nat) :=
  match splitOnChar ':' (chars s) with
  | [hs, ms] => do
    let h ← nat12? hs
    let m ← nat12? ms
    some (h, m)
  | _ => none

/-- Parse `H:M:S` exactly (three fields). -/
def parseHMS3 (s : String) : Option (Nat × Nat × Nat) :=
  match splitOnChar ':' (chars s) with
  | [hs, ms, ss] => do
    let h ← nat12? hs
    let m ← nat12? ms
    let sec ← nat12? ss
    some (h, m, sec)
  | _ => none

/-- Model of `datetime.strptime(s, fmt)` for the five configured formats
(`None` for any other format string); the whole input must match, numeric
fields may be unpadded, and the resulting date must be a valid calendar
date, exactly as `strptime` enforces. -/
def strptimeFmt (fmt : String) (s : String) : Option DT :=
  let check := fun (dt : DT) => if validDT dt then some dt else none
  if fmt = "%Y-%m-%d %H:%M:%S" then
    (splitOnce ' ' s).bind fun dt =>
      (parseYMD dt.1).bind fun ymd =>
        (parseHMS3 dt.2).bind fun hms =>
          check ⟨ymd.1, ymd.2.1, ymd.2.2, hms.1, hms.2.1, hms.2.2⟩
  else if fmt = "%Y-%m-%dT%H:%M:%S" then
    (splitOnce 'T' s).bind fun dt =>
      (parseYMD dt.1).bind fun ymd =>
        (parseHMS3 dt.2).bind fun hms =>
          check ⟨ymd.1, ymd.2.1, ymd.2.2, hms.1, hms.2.1, hms.2.2⟩
  else if fmt = "%d/%m/%Y %H:%M" then
    (splitOnce ' ' s).bind fun dt =>
      (parseDMY '/' dt.1).bind fun ymd =>
        (parseHM dt.2).bind fun hm =>
          check ⟨ymd.1, ymd.2.1, ymd.2.2, hm.1, hm.2, 0⟩
  else if fmt = "%d-%m-%Y %H:%M" then
    (splitOnce ' ' s).bind fun dt =>
      (parseDMY '-' dt.1).bind fun ymd =>
        (parseHM dt.2).bind fun hm =>
          check ⟨ymd.1, ymd.2.1, ymd.2.2, hm.1, hm.2, 0⟩
  else if fmt = "%Y-%m-%d" then
    (parseYMD s).bind fun ymd => check ⟨ymd.1, ymd.2.1, ymd.2.2, 0, 0, 0⟩
  else none

/-- Greedy `\d{1,2}` followed by a literal separator, with the one-step
backtracking of the regex engine; returns the value and the rest. -/
def num12Sep (sep : Char) : List Char → Option (Nat × List Char)
  | a :: b :: c :: t =>
    if a.isDigit ∧ b.isDigit ∧ c == sep then some (digitsVal [a, b], t)
    else if a.isDigit ∧ b == sep then some (digitsVal [a], c :: t)
    else none
  | [a, b] => if a.isDigit ∧ b == sep then some (digitsVal [a], []) else none
  | _ => none

/-- Greedy `\d{1,2}` at the end of a pattern (trailing input is ignored,
as with `re.match`). -/
def num12End : List Char → Option Nat
  | a :: b :: _ =>
    if a.isDigit ∧ b.isDigit then some (digitsVal [a, b])
    else if a.isDigit then some (digitsVal [a]) else none
  | [a] => if a.isDigit then some (digitsVal [a]) else none
  | [] => none

/-- Exactly `\d{4}` followed by a literal separator. -/
def num4Sep (sep : Char) : List Char → Option (Nat × List Char)
  | a :: b :: c :: d :: e :: t =>
    if a.isDigit ∧ b.isDigit ∧ c.isDigit ∧ d.isDigit ∧ e == sep then
      some (digitsVal [a, b, c, d], t)
    else none
  | _ => none

/-- Exactly `\d{4}` at the end of a pattern (trailing input ignored). -/
def num4End : List Char → Option Nat
  | a :: b :: c :: d :: _ =>
    if a.isDigit ∧ b.isDigit ∧ c.isDigit ∧ d.isDigit then some (digitsVal [a, b, c, d])
    else none
  | _ => none

/-- Prefix match of `(\d{4})-(\d{1,2})-(\d{1,2})` as year, month, day. -/
def reYMD (cs : List Char) : Option (Nat × Nat × Nat) :=
  (num4Sep '-' cs).bind fun yr =>
    (num12Sep '-' yr.2).bind fun mr =>
      (num12End mr.2).map fun d => (yr.1, mr.1, d)

/-- Prefix match of `(\d{1,2})/(\d{1,2})/(\d{4})` as day, month, year. -/
def reDMYslash (cs : List Char) : Option (Nat × Nat × Nat) :=
  (num12Sep '/' cs).bind fun dr =>
    (num12Sep '/' dr.2).bind fun mr =>
      (num4End mr.2).map fun y => (y, mr.1, dr.1)

/-- Prefix match of `(\d{1,2})-(\d{1,2})-(\d{4})` as day, month, year. -/
def reDMYdash (cs : List Char) : Option (Nat × Nat × Nat) :=
  (num12Sep '-' cs).bind fun dr =>
    (num12Sep '-' dr.2).bind fun mr =>
      (num4End mr.2).map fun y => (y, mr.1, dr.1)

/-- Last fallback of `_normalize_date`: the three prefix regex patterns in
order, each followed by a `datetime(year, month, day)` construction whose
failure falls through to the next pattern. -/
def regexStage (s : String) : Option DT :=
  let cs := chars s
  let check := fun (ymd : Nat × Nat × Nat) =>
    let dt : DT := ⟨ymd.1, ymd.2.1, ymd.2.2, 0, 0, 0⟩
    if validDT dt then some dt else none
  match (reYMD cs).bind check with
  | some dt => some dt
  | none =>
    match (reDMYslash cs).bind check with
    | some dt => some dt
    | none => (reDMYdash cs).bind check

/-- Model of `datetime.fromtimestamp(t).isoformat()` on whole seconds,
assuming a UTC local timezone (Howard Hinnant's civil-from-days algorithm). -/
def isoOfEpoch (t : Int) : String :=
  let days : Int := t.fdiv 86400
  let secs : Nat := (t - days * 86400).toNat
  let z : Int := days + 719468
  let era : Int := z.fdiv 146097
  let doe : Nat := (z - era * 146097).toNat
  let yoe : Nat := (doe - doe / 1460 + doe / 36524 - doe / 146096) / 365
  let doy : Nat := doe - (365 * yoe + yoe / 4 - yoe / 100)
  let mp : Nat := (5 * doy + 2) / 153
  let d : Nat := doy - (153 * mp + 2) / 5 + 1
  let m : Nat := if mp < 10 then mp + 3 else mp - 9
  let y : Int := (yoe : Int) + era * 400 + (if m ≤ 2 then 1 else 0)
  isoOfDT ⟨y.toNat, m, d, secs / 3600, secs / 60 % 60, secs % 60⟩

/-- Numeric branch of `_normalize_date`: values above `1e10` are taken as
milliseconds, and the timestamp is converted with `fromtimestamp`.
The fractional part is dropped by the model and out-of-range timestamps
(Python raises there, caught by the surrounding handler) yield `none`. -/
def fromtimestampModel (q : Rat) : Option String :=
  let q2 := if q > (10000000000 : Rat) then q / 1000 else q
  let t : Int := q2.floor
  if t < -62135596800 ∨ 253402300799 < t then none
  else some (isoOfEpoch t)

/-- Embedding of `DataCleaner._normalize_date`: falsy values yield `None`;
numbers go through the timestamp branch; strings are stripped and tried
against, in order, the dateutil parser, the configured explicit formats, and
the three regex shapes; every success is rendered with `isoformat()`. -/
def normalize_date (v : Value) : Option String :=
  if truthy v = false then none
  else match v with
  | .vnone => none
  | .vnum q => fromtimestampModel q
  | .vstr s =>
    let date_str := pyStrip s
    match dateutil_parse date_str with
    | some dt => some (isoOfDT dt)
    | none =>
      match DATE_FORMATS.findSome? (fun f => strptimeFmt f date_str) with
      | some dt => some (isoOfDT dt)
      | none => (regexStage date_str).map isoOfDT

/-- Auxiliary recursion for whitespace collapsing; the flag records whether
the previous character was whitespace. -/
def collapseWsAux : List Char → Bool → List Char
  | [], _ => []
  | c :: t, prev =>
    if isPySpace c then
      (if prev then collapseWsAux t true else ' ' :: collapseWsAux t true)
    else c :: collapseWsAux t false

/-- Model of `re.sub(r"\s+", " ", s)`: collapse every whitespace run to a
single space. -/
def collapseWs (s : String) : String := ofChars (collapseWsAux (chars s) false)

/-- Control characters removed by `_normalize_message`
(`[\x00-\x1f\x7f-\x9f]`). -/
def isCtl (c : Char) : Bool := c.toNat ≤ 0x1f || (0x7f ≤ c.toNat && c.toNat ≤ 0x9f)

/-- Embedding of `DataCleaner._normalize_message`: strip, collapse
whitespace, unicode-NFKC-normalize (modelled as the identity, exact on the
ASCII texts exercised below), remove control characters; empty results become
`None`. -/
def normalize_message (v : Value) : Option String :=
  if truthy v = false then none
  else
    let s1 := collapseWs (pyStrip (pyStr v))
    let s2 := ofChars ((chars s1).filter (fun c => !(isCtl c)))
    if s2 = "" then none else some s2

/-- Embedding of `DataCleaner._normalize_sender`: strip, collapse
whitespace, NFKC (identity model); empty results become `None`. -/
def normalize_sender (v : Value) : Option String :=
  if truthy v = false then none
  else
    let s1 := collapseWs (pyStrip (pyStr v))
    if s1 = "" then none else some s1

/-- Embedding of `DataCleaner._normalize_recipient` (same algorithm as the
sender normalizer). -/
def normalize_recipient (v : Value) : Option String :=
  if truthy v = false then none
  else
    let s1 := collapseWs (pyStrip (pyStr v))
    if s1 = "" then none else some s1

/-- Synonym table of `_normalize_status`. -/
def STATUS_MAPPING : List (String × String) :=
  [("success", "success"), ("completed", "success"), ("done", "success"), ("ok", "success"),
   ("pending", "pending"), ("processing", "pending"), ("in_progress", "pending"),
   ("failed", "failed"), ("error", "failed"), ("declined", "failed"), ("rejected", "failed"),
   ("cancelled", "cancelled"), ("canceled", "cancelled")]

/-- Embedding of `DataCleaner._normalize_status`: falsy values become
`"unknown"`; otherwise lower-case, trim, and map through the synonym table,
passing unknown values through unchanged. -/
def normalize_status (v : Value) : String :=
  if truthy v = false then "unknown"
  else
    let status_str := pyLower (pyStrip (pyStr v))
    (STATUS_MAPPING.lookup status_str).getD status_str

/-- Synonym table of `_normalize_type`. -/
def TYPE_MAPPING : List (String × String) :=
  [("payment", "payment"), ("pay", "payment"), ("bill", "payment"), ("utility", "payment"),
   ("transfer", "transfer"), ("send", "transfer"), ("money", "transfer"),
   ("withdrawal", "withdrawal"), ("withdraw", "withdrawal"), ("cashout", "withdrawal"),
   ("deposit", "deposit"), ("topup", "deposit"), ("recharge", "deposit")]

/-- Embedding of `DataCleaner._normalize_type` (same shape as the status
normalizer, with its own synonym table). -/
def normalize_type (v : Value) : String :=
  if truthy v = false then "unknown"
  else
    let type_str := pyLower (pyStrip (pyStr v))
    (TYPE_MAPPING.lookup type_str).getD type_str

/-- Raw transaction dictionary as handed to `DataCleaner` (the key set
produced by `MoMoXMLParser._parse_transaction_element`), with heterogeneous
raw values. -/
structure RawTxn where
  id : Value
  date : Value
  amount : Value
  phone : Value
  message : Value
  status : Value
  type : Value
  sender : Value
  recipient : Value
  fee : Value
  balance : Value
  raw_data : Value
deriving DecidableEq

/-- Cleaned transaction dictionary (NormalizedRecord): every field replaced
by its canonical form, plus the cleaning metadata.  `status` and `type` are
plain strings because their normalizers never return `None`. -/
structure CleanedTxn where
  id : Value
  date : Option String
  amount : Option Rat
  phone : Option String
  message : Option String
  status : String
  type : String
  sender : Option String
  recipient : Option String
  fee : Option Rat
  balance : Option Rat
  raw_data : Value
  cleaned_at : String
  cleaning_version : String
deriving DecidableEq

/-- Embedding of `DataCleaner._validate_cleaned_transaction`: the required
fields `date` and `amount` are checked for Python truthiness (so `None`, the
empty string and `0.0` all fail). -/
def validate_cleaned_transaction (t : CleanedTxn) : Bool :=
  truthyS t.date && truthyN t.amount

/-- Embedding of `DataCleaner._clean_single_transaction`: normalize every
field, add the cleaning metadata (`now` models `datetime.now().isoformat()`),
and return `None` when the required-fields validation fails. -/
def clean_single_transaction (now : String) (t : RawTxn) : Option CleanedTxn :=
  let cleaned : CleanedTxn := {
    id := t.id
    date := normalize_date t.date
    amount := normalize_amount t.amount
    phone := normalize_phone t.phone
    message := normalize_message t.message
    status := normalize_status t.status
    type := normalize_type t.type
    sender := normalize_sender t.sender
    recipient := normalize_recipient t.recipient
    fee := normalize_amount t.fee
    balance := normalize_amount t.balance
    raw_data := t.raw_data
    cleaned_at := now
    cleaning_version := "1.0" }
  if validate_cleaned_transaction cleaned then some cleaned else none

/-- Embedding of `DataCleaner.clean_transactions`: per-record cleaning with
dropped records excluded from the output; the second component is the
`cleaning_errors` list, which the source appends to only when a record raises
an exception — the records dropped by validation are not added to it. -/
def clean_transactions (now : String) (ts : List RawTxn) : List CleanedTxn × List String :=
  (ts.filterMap (clean_single_transaction now), [])

/-- Extracted transaction dictionary as built by
`MoMoXMLParser._parse_transaction_element` (after text extraction, so every
field is either a stripped string / parsed float or `None`). -/
structure ParsedTxn where
  id : Option String
  date : Option String
  amount : Option Rat
  phone : Option String
  message : Option String
  status : Option String
  sender : Option String
  recipient : Option String
  type : Option String
  fee : Option Rat
  balance : Option Rat
  raw_data : String
deriving DecidableEq

/-- Embedding of `MoMoXMLParser._validate_transaction`: the required fields
`date` and `amount` are checked for Python truthiness. -/
def validate_transaction (t : ParsedTxn) : Bool :=
  truthyS t.date && truthyN t.amount

/-- OTP keyword signatures of `MoMoXMLParser._is_otp_message`. -/
def OTP_KEYWORDS : List String :=
  ["one-time password", "otp", "does not recommend that you share",
   "verification code", "do not share", "be vigilant"]

/-- Embedding of `MoMoXMLParser._is_otp_message` on the lower-cased message. -/
def is_otp_message (message_lower : String) : Bool :=
  if message_lower = "" then false
  else OTP_KEYWORDS.any (fun k => containsSub message_lower k)

/-- Fragment-level model of `MoMoXMLParser._extract_transactions`: each
already-extracted fragment is kept when it passes the required-fields
validation and is not an OTP/verification message.  (The XML tag selection
and per-field text lookup are not modelled; the claims quantify over the
extracted field mappings.  The `TXN`-index id generation is omitted — no
claim below depends on the generated ids.) -/
def extract_transactions (ts : List ParsedTxn) : List ParsedTxn :=
  (ts.filter validate_transaction).filter
    (fun t => !(is_otp_message (pyLower (t.message.getD ""))))

/-- Injection of an optional string field into a raw dictionary value. -/
def vOfS : Option String → Value
  | none => .vnone
  | some s => .vstr s

/-- Injection of an optional numeric field into a raw dictionary value. -/
def vOfN : Option Rat → Value
  | none => .vnone
  | some q => .vnum q

/-- View of an extracted transaction as the raw dictionary the cleaner
receives from the parser. -/
def toRaw (p : ParsedTxn) : RawTxn :=
  { id := vOfS p.id, date := vOfS p.date, amount := vOfN p.amount, phone := vOfS p.phone,
    message := vOfS p.message, status := vOfS p.status, type := vOfS p.type,
    sender := vOfS p.sender, recipient := vOfS p.recipient, fee := vOfN p.fee,
    balance := vOfN p.balance, raw_data := .vstr p.raw_data }

/-- Configured category keyword lists (`config.TRANSACTION_CATEGORIES`), in
insertion order. -/
def TRANSACTION_CATEGORIES : List (String × List String) :=
  [("payment",
    ["payment", "pay", "bill", "utility", "cash power", "mtn cash power",
     "has been completed", "completed", "token", "merchant", "direct payment"]),
   ("transfer",
    ["transfer", "transferred", "send", "money", "cash", "p2p", "to ", "from ",
     "you have received", "received"]),
   ("withdrawal",
    ["withdraw", "withdrawal", "atm", "cashout", "withdrawn",
     "collect your money in cash", "cash out", "cash-out"]),
   ("deposit",
    ["deposit", "topup", "recharge", "add", "added to your mobile money account",
     "cash deposit", "bank deposit", "has been added"])]

/-- Model of `category_scores[k] += n` on a `defaultdict(int)` kept as an
insertion-ordered association list: increment an existing key in place, or
append a fresh key. -/
def bump (sc : List (String × Nat)) (k : String) (n : Nat) : List (String × Nat) :=
  if sc.any (fun p => p.1 == k) then
    sc.map (fun p => if p.1 == k then (p.1, p.2 + n) else p)
  else sc ++ [(k, n)]

/-- Keyword scoring of one category: one increment per keyword of the list
occurring in the lower-cased message. -/
def kwBumpCat (msg cat : String) (kws : List String) (sc : List (String × Nat)) :
    List (String × Nat) :=
  kws.foldl (fun sc kw => if containsSub msg (pyLower kw) then bump sc cat 1 else sc) sc

/-- Keyword scoring over all configured categories, in table order. -/
def keywordPass (msg : String) (sc : List (String × Nat)) : List (String × Nat) :=
  TRANSACTION_CATEGORIES.foldl (fun sc ck => kwBumpCat msg ck.1 ck.2 sc) sc

/-- Nine following digits, as required by the merchant patterns. -/
def nineDigits (cs : List Char) : Bool :=
  (cs.take 9).length == 9 && (cs.take 9).all Char.isDigit

/-- Prefix match of `233\d{9}`. -/
def matchMerchant233 : List Char → Bool
  | '2' :: '3' :: '3' :: t => nineDigits t
  | _ => false

/-- Prefix match of `\+233\d{9}`. -/
def matchMerchantPlus : List Char → Bool
  | '+' :: '2' :: '3' :: '3' :: t => nineDigits t
  | _ => false

/-- Embedding of `TransactionCategorizer._is_merchant_phone`: `re.match`
against the two hard-coded Ghana merchant patterns. -/
def is_merchant_phone (phone : Option String) : Bool :=
  match phone with
  | none => false
  | some p => if p = "" then false else matchMerchant233 (chars p) || matchMerchantPlus (chars p)

/-- Merchant bonus of `_determine_category`: `+2` on `"payment"`. -/
def merchantPass (phone : Option String) (sc : List (String × Nat)) : List (String × Nat) :=
  if is_merchant_phone phone then bump sc "payment" 2 else sc

/-- Amount bonus of `_determine_category`: guarded by Python truthiness of
the amount, `+1` on `"deposit"` below `1000`, else `+1` on `"transfer"`
above `10000` (both literals in the source). -/
def amountPass (amount : Option Rat) (sc : List (String × Nat)) : List (String × Nat) :=
  match amount with
  | none => sc
  | some a =>
    if a = 0 then sc
    else if a < 1000 then bump sc "deposit" 1
    else if a > 10000 then bump sc "transfer" 1
    else sc

/-- Model of Python `max(items, key=value)[0]` on the insertion-ordered
score list: the first key attaining the maximal value (strictly greater
values replace the current best). -/
def firstMax (sc : List (String × Nat)) : Option String :=
  match sc with
  | [] => none
  | p :: rest => some ((rest.foldl (fun best q => if q.2 > best.2 then q else best) p).1)

/-- Embedding of `TransactionCategorizer._determine_category`: a truthy,
non-`"unknown"` type is returned verbatim; otherwise the three scoring
passes run over the lower-cased message and the first maximal entry of the
score dict wins, an empty score dict giving `"unknown"`.  A record with no
explicit type and a `None` message raises `TypeError` on `.lower()` in the
source (caught by the caller, which then drops the record); the model
returns `none` there. -/
def determine_category (t : CleanedTxn) : Option String :=
  if t.type != "" && t.type != "unknown" then some t.type
  else match t.message with
  | none => none
  | some m =>
    let message := pyLower m
    let sc := amountPass t.amount (merchantPass t.phone (keywordPass message []))
    match firstMax sc with
    | some c => some c
    | none => some "unknown"

/-- Configured amount thresholds (`config.AMOUNT_THRESHOLDS`). -/
def AMOUNT_THRESHOLDS : List (String × Rat) :=
  [("small", 1000), ("medium", 5000), ("large", 10000)]

/-- Threshold lookup (every key used in the source is present). -/
def thr (name : String) : Rat := (AMOUNT_THRESHOLDS.lookup name).getD 0

/-- Embedding of `TransactionCategorizer._categorize_amount_range`. -/
def categorize_amount_range (amount : Option Rat) : String :=
  match amount with
  | none => "unknown"
  | some a =>
    if a ≤ thr "small" then "small"
    else if a ≤ thr "medium" then "medium"
    else if a ≤ thr "large" then "large"
    else "very_large"

/-- Model of `str.replace("Z", "+00:00")`. -/
def replaceZ (s : String) : String :=
  ofChars ((chars s).flatMap (fun c => if c == 'Z' then ['+', '0', '0', ':', '0', '0'] else [c]))

/-- Shape check for an ISO offset suffix: empty, `±HH:MM`, or `±HH:MM:SS`. -/
def parseIsoOffset : List Char → Bool
  | [] => true
  | s :: h1 :: h2 :: c :: m1 :: m2 :: rest =>
    (s == '+' || s == '-') && h1.isDigit && h2.isDigit && c == ':' && m1.isDigit && m2.isDigit &&
    (match rest with
     | [] => true
     | c2 :: s1 :: s2 :: [] => c2 == ':' && s1.isDigit && s2.isDigit
     | _ => false)
  | _ => false

/-- Shape check for optional fractional seconds followed by an optional
offset (`.fff` or `.ffffff` as accepted by `fromisoformat`). -/
def parseIsoFracOff : List Char → Bool
  | '.' :: r =>
    let fr := r.takeWhile Char.isDigit
    (fr.length == 3 || fr.length == 6) && parseIsoOffset (r.drop fr.length)
  | r => parseIsoOffset r

/-- Time-of-day part of the `fromisoformat` model, returning the hour. -/
def parseIsoTime (t : List Char) : Option Nat :=
  match t with
  | h1 :: h2 :: c :: mi1 :: mi2 :: rest =>
    if h1.isDigit ∧ h2.isDigit ∧ c == ':' ∧ mi1.isDigit ∧ mi2.isDigit then
      let hh := digitsVal [h1, h2]
      let mm := digitsVal [mi1, mi2]
      if hh ≤ 23 ∧ mm ≤ 59 then
        match rest with
        | [] => some hh
        | ':' :: s1 :: s2 :: r2 =>
          if s1.isDigit ∧ s2.isDigit ∧ digitsVal [s1, s2] ≤ 59 ∧ parseIsoFracOff r2 then some hh
          else none
        | r2 => if parseIsoOffset r2 then some hh else none
      else none
    else none
  | _ => none

/-- Model of `datetime.fromisoformat(s).hour` (CPython's pre-3.11 strict
grammar, approximated: zero-padded `YYYY-MM-DD`, then optionally any single
separator character and `HH:MM[:SS[.fff/ffffff]]` with an optional offset);
`none` models the `ValueError` caught by `_categorize_time`. -/
def pyFromIsoHour (s : String) : Option Nat :=
  let cs := chars s
  match cs.take 10 with
  | [y1, y2, y3, y4, c1, m1, m2, c2, d1, d2] =>
    if y1.isDigit ∧ y2.isDigit ∧ y3.isDigit ∧ y4.isDigit ∧ c1 == '-' ∧ m1.isDigit ∧
       m2.isDigit ∧ c2 == '-' ∧ d1.isDigit ∧ d2.isDigit then
      let dt : DT := ⟨digitsVal [y1, y2, y3, y4], digitsVal [m1, m2], digitsVal [d1, d2], 0, 0, 0⟩
      if validDT dt then
        match cs.drop 10 with
        | [] => some 0
        | _ :: t => parseIsoTime t
      else none
    else none
  | _ => none

/-- Embedding of `TransactionCategorizer._categorize_time`: bucket the hour
of the parsed date into morning/afternoon/evening/night, with `"unknown"`
for absent or unparseable dates. -/
def categorize_time (date_str : Option String) : String :=
  match date_str with
  | none => "unknown"
  | some s =>
    if s = "" then "unknown"
    else
      let s2 := if containsSub s "T" then replaceZ s else s
      match pyFromIsoHour s2 with
      | none => "unknown"
      | some h =>
        if 6 ≤ h ∧ h < 12 then "morning"
        else if 12 ≤ h ∧ h < 17 then "afternoon"
        else if 17 ≤ h ∧ h < 21 then "evening"
        else "night"

/-- Suspicious digit patterns of `_is_suspicious_phone`. -/
def SUSPICIOUS_PATTERNS : List String :=
  ["000000000", "111111111", "123456789", "987654321"]

/-- Embedding of `TransactionCategorizer._is_suspicious_phone` (`re.search`,
so a substring match anywhere). -/
def is_suspicious_phone (phone : Option String) : Bool :=
  match phone with
  | none => false
  | some p => if p = "" then false else SUSPICIOUS_PATTERNS.any (fun pat => containsSub p pat)

/-- Embedding of `TransactionCategorizer._assess_risk_level`.  When the
amount is `None` the source compares `None > 50000` and raises `TypeError`
(caught by the caller, dropping the record); the model returns `none`. -/
def assess_risk_level (t : CleanedTxn) : Option String :=
  match t.amount with
  | none => none
  | some amount =>
    let s1 : Nat := if amount > 50000 then 3 else if amount > 10000 then 2
      else if amount > 5000 then 1 else 0
    let s2 : Nat := if categorize_time t.date = "night" then 1 else 0
    let s3 : Nat := if pyLower t.status = "failed" ∨ pyLower t.status = "pending" then 1 else 0
    let s4 : Nat := if is_suspicious_phone t.phone then 2 else 0
    let risk_score := s1 + s2 + s3 + s4
    some (if risk_score ≥ 4 then "high" else if risk_score ≥ 2 then "medium" else "low")

/-- Hard-coded Ghana area-code table of `_determine_geographic_region`. -/
def region_mapping : List (String × String) :=
  [("20", "Greater Accra"), ("21", "Greater Accra"), ("22", "Greater Accra"),
   ("23", "Greater Accra"), ("24", "Greater Accra"), ("25", "Greater Accra"),
   ("26", "Greater Accra"), ("27", "Greater Accra"), ("28", "Greater Accra"),
   ("29", "Greater Accra"),
   ("30", "Ashanti"), ("31", "Ashanti"), ("32", "Ashanti"), ("33", "Ashanti"),
   ("34", "Ashanti"), ("35", "Ashanti"), ("36", "Ashanti"), ("37", "Ashanti"),
   ("38", "Ashanti"), ("39", "Ashanti"),
   ("40", "Western"), ("41", "Western"), ("42", "Western"), ("43", "Western"),
   ("44", "Western"), ("45", "Western"), ("46", "Western"), ("47", "Western"),
   ("48", "Western"), ("49", "Western"),
   ("50", "Central"), ("51", "Central"), ("52", "Central"), ("53", "Central"),
   ("54", "Central"), ("55", "Central"), ("56", "Central"), ("57", "Central"),
   ("58", "Central"), ("59", "Central")]

/-- Embedding of `TransactionCategorizer._determine_geographic_region`:
only `+233`-prefixed phones are mapped, through `phone[4:6]`. -/
def determine_geographic_region (phone : Option String) : String :=
  match phone with
  | none => "unknown"
  | some p =>
    if p = "" then "unknown"
    else if pyStartsWith p "+233" then (region_mapping.lookup (strSlice p 4 6)).getD "Other"
    else "unknown"

/-- Categorized transaction dictionary (ClassifiedRecord): the cleaned
fields plus the five derived labels and the categorization metadata. -/
structure CatTxn where
  id : Value
  date : Option String
  amount : Option Rat
  phone : Option String
  message : Option String
  status : String
  type : String
  sender : Option String
  recipient : Option String
  fee : Option Rat
  balance : Option Rat
  raw_data : Value
  cleaned_at : String
  cleaning_version : String
  category : String
  amount_range : String
  time_category : String
  risk_level : String
  geographic_region : String
  categorized_at : String
  categorization_version : String
deriving DecidableEq

/-- Embedding of `TransactionCategorizer._categorize_single_transaction`:
copy the record, add the five derived labels and the categorization
metadata (`now` models `datetime.now().isoformat()`); a `TypeError` inside
category or risk derivation makes the source return `None`. -/
def categorize_single_transaction (now : String) (t : CleanedTxn) : Option CatTxn :=
  match determine_category t, assess_risk_level t with
  | some cat, some risk =>
    some { id := t.id, date := t.date, amount := t.amount, phone := t.phone,
           message := t.message, status := t.status, type := t.type,
           sender := t.sender, recipient := t.recipient, fee := t.fee,
           balance := t.balance, raw_data := t.raw_data, cleaned_at := t.cleaned_at,
           cleaning_version := t.cleaning_version,
           category := cat,
           amount_range := categorize_amount_range t.amount,
           time_category := categorize_time t.date,
           risk_level := risk,
           geographic_region := determine_geographic_region t.phone,
           categorized_at := now, categorization_version := "1.0" }
  | _, _ => none

/-- Embedding of `TransactionCategorizer.categorize_transactions`:
per-record categorization, dropped records excluded from the output. -/
def categorize_transactions (now : String) (ts : List CleanedTxn) : List CatTxn :=
  ts.filterMap (categorize_single_transaction now)

/-- Stored transaction row of the `transactions` table; `none` is SQL
`NULL`.  `date` and `amount` carry `NOT NULL` constraints in the schema. -/
structure Row where
  id : Option String
  date : Option String
  amount : Option Rat
  phone : Option String
  message : Option String
  status : Option String
  type : Option String
  category : Option String
  sender : Option String
  recipient : Option String
  fee : Option Rat
  balance : Option Rat
  amount_range : Option String
  time_category : Option String
  risk_level : Option String
  geographic_region : Option String
  raw_data : Option String
  cleaned_at : Option String
  cleaning_version : Option String
  categorized_at : Option String
  categorization_version : Option String
deriving DecidableEq

/-- SQL equality on nullable ids: `NULL` compares equal to nothing. -/
def sqlEq : Option String → Option String → Bool
  | some a, some b => a == b
  | _, _ => false

/-- String view of a raw id / raw_data value as bound into the SQL
statement (these are strings everywhere in the pipeline; a numeric value
would be stored numerically by SQLite and is rendered via its repr here). -/
def sqlS : Value → Option String
  | .vnone => none
  | .vstr s => some s
  | .vnum q => some (pyStr (.vnum q))

/-- Embedding of `DatabaseLoader._prepare_transaction_data` (the column
values bound by `load_transactions`); the `.get(key, default)` defaults are
dead because every key is present in a categorized record. -/
def prepare_transaction_data (t : CatTxn) : Row :=
  { id := sqlS t.id, date := t.date, amount := t.amount, phone := t.phone,
    message := t.message, status := some t.status, type := some t.type,
    category := some t.category, sender := t.sender, recipient := t.recipient,
    fee := t.fee, balance := t.balance, amount_range := some t.amount_range,
    time_category := some t.time_category, risk_level := some t.risk_level,
    geographic_region := some t.geographic_region, raw_data := sqlS t.raw_data,
    cleaned_at := some t.cleaned_at, cleaning_version := some t.cleaning_version,
    categorized_at := some t.categorized_at,
    categorization_version := some t.categorization_version }

/-- Pre-check read of `_prepare_transaction_data` (`SELECT id FROM
transactions WHERE id = ?`): does a row with this id exist? -/
def existsId (tbl : List Row) (i : Option String) : Bool := tbl.any (fun r => sqlEq r.id i)

/-- Append-only audit event (one `audit_log` row); `details` models the
JSON-serialized prepared data. -/
structure AuditEvent where
  action : String
  table_name : String
  record_id : Option String
  details : Row
deriving DecidableEq

/-- Database state: the `transactions` table, the append-only `audit_log`
table, and the count of per-record load errors. -/
structure DBState where
  transactions : List Row
  audit : List AuditEvent
  load_errors : Nat
deriving DecidableEq

/-- Model of SQLite `INSERT OR REPLACE` on a table keyed by `id`: delete
every conflicting row (same non-NULL id), then insert the new row. -/
def insertOrReplace (tbl : List Row) (r : Row) : List Row :=
  tbl.filter (fun x => !(sqlEq x.id r.id)) ++ [r]

/-- One iteration of the `DatabaseLoader.load_transactions` loop: prepare
the data (with its pre-check read), run `INSERT OR REPLACE`, and append one
audit event whose action reflects the pre-check; a row violating the
`NOT NULL` constraint on `date` or `amount` raises `IntegrityError`, which
the source catches and counts, skipping the row and its audit insert. -/
def load_step (st : DBState) (t : CatTxn) : DBState :=
  let data := prepare_transaction_data t
  let is_new := !(existsId st.transactions data.id)
  if data.date = none ∨ data.amount = none then
    { st with load_errors := st.load_errors + 1 }
  else
    { transactions := insertOrReplace st.transactions data,
      audit := st.audit ++ [{ action := if is_new then "INSERT" else "UPDATE",
                              table_name := "transactions", record_id := data.id,
                              details := data }],
      load_errors := st.load_errors }

/-- Embedding of `DatabaseLoader.load_transactions` over a batch. -/
def load_transactions (st : DBState) (ts : List CatTxn) : DBState :=
  ts.foldl load_step st

/-- The four-stage pipeline of `run.py` over already-extracted fragments:
extraction filtering, normalization, classification, persistence. -/
def pipeline (now : String) (ts : List ParsedTxn) (st : DBState) : DBState :=
  load_transactions st
    (categorize_transactions now
      ((clean_transactions now ((extract_transactions ts).map toRaw)).1))

/-- Sample normalized record whose message matches only the `"atm"`
withdrawal keyword while its amount exceeds the large threshold, producing a
withdrawal/transfer score tie. -/
def rAtm : CleanedTxn :=
  { id := .vnone
    date := some "2024-01-15T14:30:00"
    amount := some 20000
    phone := none
    message := some "atm"
    status := "success"
    type := "unknown"
    sender := none
    recipient := none
    fee := none
    balance := none
    raw_data := .vnone
    cleaned_at := "c"
    cleaning_version := "1.0" }

/-- Sample normalized record matching the spec's end-to-end scenario. -/
def rPayment : CleanedTxn :=
  { id := .vstr "TXN000001"
    date := some "2024-01-15T14:30:00"
    amount := some 1500
    phone := some "+250241234567"
    message := some "Payment received for utility bill"
    status := "success"
    type := "unknown"
    sender := none
    recipient := none
    fee := none
    balance := none
    raw_data := .vstr "raw"
    cleaned_at := "c"
    cleaning_version := "1.0" }

/-- Category names in the iteration order of the category table. -/
def categoryNames : List String := TRANSACTION_CATEGORIES.map Prod.fst

/-- Keyword score of one category: the number of keywords of the category's
configured list occurring in the lower-cased message. -/
def specKwCount (msg cat : String) : Nat :=
  ((TRANSACTION_CATEGORIES.lookup cat).getD []).countP (fun kw => containsSub msg (pyLower kw))

/-- Scoring formula of claim C5 as literally stated: keyword count, plus 2
on `"payment"` for a merchant phone, plus 1 on `"deposit"` when the amount
is below the small threshold, plus 1 on `"transfer"` when it exceeds the
large threshold. -/
def claimScore (msg : String) (phone : Option String) (amount : Option Rat) (cat : String) :
    Nat :=
  specKwCount msg cat
  + (if cat = "payment" ∧ is_merchant_phone phone then 2 else 0)
  + (match amount with
     | none => 0
     | some a =>
       if cat = "deposit" ∧ a < thr "small" then 1
       else if cat = "transfer" ∧ a > thr "large" then 1
       else 0)

/-- Category selection of claim C5 as literally stated: the configured
category with the highest score, ties broken by the iteration order of the
category table, an all-zero score yielding `"unknown"`. -/
def claimCategory (t : CleanedTxn) : Option String :=
  if t.type != "" && t.type != "unknown" then some t.type
  else t.message.map fun m =>
    let msg := pyLower m
    let score := claimScore msg t.phone t.amount
    let best := (categoryNames.map score).foldr Nat.max 0
    if best = 0 then "unknown"
    else (categoryNames.find? (fun c => score c == best)).getD "unknown"

/-- Amount bonus actually awarded by the code: guarded by truthiness of the
amount, `+1` on `"deposit"` below `1000`, else `+1` on `"transfer"` above
`10000`. -/
def specAmountBonus (amount : Option Rat) (cat : String) : Nat :=
  match amount with
  | none => 0
  | some a =>
    if a = 0 then 0
    else if a < 1000 then (if cat = "deposit" then 1 else 0)
    else if a > 10000 then (if cat = "transfer" then 1 else 0)
    else 0

/-- Total score awarded to a category by the code's three scoring passes. -/
def specScore (msg : String) (phone : Option String) (amount : Option Rat) (cat : String) :
    Nat :=
  specKwCount msg cat
  + (if cat = "payment" ∧ is_merchant_phone phone then 2 else 0)
  + specAmountBonus amount cat

/-- Category gained by the amount bonus, when it is not already scored. -/
def amountGain (amount : Option Rat) (l1 : List String) : List String :=
  match amount with
  | none => []
  | some a =>
    if a = 0 then []
    else if a < 1000 then (if "deposit" ∈ l1 then [] else ["deposit"])
    else if a > 10000 then (if "transfer" ∈ l1 then [] else ["transfer"])
    else []

/-- Order in which categories first gain a point: keyword-scored categories
in table order, then `"payment"` via the merchant bonus, then the
amount-bumped category. -/
def gainOrder (msg : String) (phone : Option String) (amount : Option Rat) : List String :=
  let kwCats := categoryNames.filter (fun c => specKwCount msg c != 0)
  let l1 := kwCats ++ (if is_merchant_phone phone ∧ "payment" ∉ kwCats then ["payment"] else [])
  l1 ++ amountGain amount l1

/-- Category selection of amended claim C5: the highest score wins, ties
broken by the order in which categories first gained a point; no scored
category yields `"unknown"`; a record with neither an explicit type nor a
message is dropped by the code (modelled as `none` here as in
`determine_category`). -/
def specCategoryAmended (t : CleanedTxn) : Option String :=
  if t.type != "" && t.type != "unknown" then some t.type
  else t.message.map fun m =>
    let msg := pyLower m
    let score := specScore msg t.phone t.amount
    let order := gainOrder msg t.phone t.amount
    let best := (order.map score).foldr Nat.max 0
    match order.find? (fun c => score c == best) with
    | some c => c
    | none => "unknown"

/-- Pointwise update of a score function (the effect of one `bump` on the
scores). -/
def fupd (f : String → Nat) (k : String) (n : Nat) : String → Nat :=
  fun c => if c = k then f c + n else f c

/-- Insertion-ordered score list determined by a key order and a score
function. -/
def scoreFn (order : List String) (f : String → Nat) : List (String × Nat) :=
  order.map (fun c => (c, f c))

/-- Erase the wall-clock metadata field of a classified record. -/
def clearTime (t : CatTxn) : CatTxn := { t with categorized_at := "" }

/-- Raw record with a parseable date and a non-null but unparseable amount
string. -/
def rBadAmount : RawTxn :=
  { id := .vstr "T1"
    date := .vstr "2024-01-15"
    amount := .vstr "abc"
    phone := .vnone
    message := .vnone
    status := .vnone
    type := .vnone
    sender := .vnone
    recipient := .vnone
    fee := .vnone
    balance := .vnone
    raw_data := .vnone }

/-- Raw record with a non-null but unparseable date and a good amount. -/
def rBadDate : RawTxn :=
  { rBadAmount with date := .vstr "garbage", amount := .vstr "1,500.00" }

/-- Raw record with a valid date and a zero amount. -/
def rZero : RawTxn :=
  { rBadAmount with date := .vstr "2024-01-15 14:30:00", amount := .vnum 0 }

/-- Fully well-formed raw record (the cleaner's own sample). -/
def rGoodRaw : RawTxn :=
  { id := .vstr "TXN001"
    date := .vstr "2024-01-15 14:30:00"
    amount := .vstr "1,500.00"
    phone := .vstr "0241234567"
    message := .vstr "Payment received"
    status := .vstr "SUCCESS"
    type := .vnone
    sender := .vnone
    recipient := .vnone
    fee := .vnone
    balance := .vnone
    raw_data := .vstr "raw" }

/-- Extracted fragment with a zero amount and a valid date. -/
def pZero : ParsedTxn :=
  { id := some "T1"
    date := some "2024-01-15 14:30:00"
    amount := some 0
    phone := none
    message := none
    status := none
    sender := none
    recipient := none
    type := none
    fee := none
    balance := none
    raw_data := "" }

/-- Extracted fragment with an amount but no date. -/
def pNoDate : ParsedTxn := { pZero with date := none, amount := some 1500 }

/-- Classified record as stored by the persister (update-case sample). -/
def tOld : CatTxn :=
  { id := .vstr "TXN000001"
    date := some "2024-01-14T09:00:00"
    amount := some 100
    phone := none
    message := some "old"
    status := "success"
    type := "unknown"
    sender := none
    recipient := none
    fee := none
    balance := none
    raw_data := .vstr "old raw"
    cleaned_at := "c0"
    cleaning_version := "1.0"
    category := "unknown"
    amount_range := "small"
    time_category := "morning"
    risk_level := "low"
    geographic_region := "unknown"
    categorized_at := "t0"
    categorization_version := "1.0" }

/-- Classified record sharing `tOld`'s id with different content. -/
def tNew : CatTxn :=
  { tOld with
    date := some "2024-01-15T14:30:00"
    amount := some 1500
    message := some "Payment received for utility bill"
    category := "payment"
    amount_range := "medium"
    time_category := "afternoon"
    categorized_at := "t1" }

/-- Classified record with a fresh id. -/
def tFresh : CatTxn := { tNew with id := .vstr "TXN000002" }

/-- Store state holding exactly the row of `tOld`. -/
def st1 : DBState :=
  { transactions := [prepare_transaction_data tOld], audit := [], load_errors := 0 }

/-- Row of `tOld` as stored. -/
def row1 : Row := prepare_transaction_data tOld


/-- Claim C1, counterexample: the configured dial code is `"+250"`
(Rwanda), so none of the three spec examples holds — `"0241234567"` does not
normalize to `"+233241234567"`, and `"+233241234567"` does not pass through
unchanged (it normalizes to `None`). -/
theorem c1_phone_examples_counterexample :
    normalize_phone (.vstr "0241234567") ≠ some "+233241234567" ∧
    normalize_phone (.vstr "241234567") ≠ some "+233241234567" ∧
    normalize_phone (.vstr "+233241234567") ≠ some "+233241234567" := by decide

/-- Claim C1, amended: with the configured dial code `"+250"`, phone
normalization maps `"0241234567"` and `"241234567"` to `"+250241234567"`,
and maps `"+233241234567"` to `None` (no branch of the normalizer matches
it). -/
theorem c1_phone_examples_rw250 :
    normalize_phone (.vstr "0241234567") = some "+250241234567" ∧
    normalize_phone (.vstr "241234567") = some "+250241234567" ∧
    normalize_phone (.vstr "+233241234567") = none := by decide

/-- Unfolded form of `_clean_single_transaction`: validation reads the
normalized `date` and `amount` of the freshly built record. -/
theorem clean_single_transaction_eq (now : String) (t : RawTxn) :
    clean_single_transaction now t =
      (if truthyS (normalize_date t.date) && truthyN (normalize_amount t.amount) then
        some { id := t.id, date := normalize_date t.date,
               amount := normalize_amount t.amount, phone := normalize_phone t.phone,
               message := normalize_message t.message, status := normalize_status t.status,
               type := normalize_type t.type, sender := normalize_sender t.sender,
               recipient := normalize_recipient t.recipient, fee := normalize_amount t.fee,
               balance := normalize_amount t.balance, raw_data := t.raw_data,
               cleaned_at := now, cleaning_version := "1.0" }
      else none) := rfl

/-- Claim C2, counterexample: a RawRecord whose `date` and `amount` are both
non-null (`"2024-01-15"` and the unparseable string `"abc"`) is still mapped
to `None` by the Normalizer, because validation tests the normalized values,
not the raw ones. -/
theorem c2_required_fields_counterexample :
    rBadAmount.date ≠ Value.vnone ∧ rBadAmount.amount ≠ Value.vnone ∧
    clean_single_transaction "t0" rBadAmount = none := by decide

/-- Claim C2, amended: the Normalizer emits a record exactly when the
normalized date and amount are both truthy (non-null, date nonempty, amount
nonzero); a raw record with a null date or amount is always dropped; and an
emitted record carries exactly the normalized fields plus the cleaning
metadata — no partial record is emitted. -/
theorem c2_normalizer_emission :
    ∀ (now : String) (t : RawTxn),
      (clean_single_transaction now t ≠ none ↔
        truthyS (normalize_date t.date) = true ∧ truthyN (normalize_amount t.amount) = true) ∧
      ((t.date = Value.vnone ∨ t.amount = Value.vnone) →
        clean_single_transaction now t = none) ∧
      (∀ c, clean_single_transaction now t = some c →
        c.date = normalize_date t.date ∧ c.amount = normalize_amount t.amount ∧
        c.phone = normalize_phone t.phone ∧ c.message = normalize_message t.message ∧
        c.status = normalize_status t.status ∧ c.type = normalize_type t.type ∧
        c.sender = normalize_sender t.sender ∧ c.recipient = normalize_recipient t.recipient ∧
        c.fee = normalize_amount t.fee ∧ c.balance = normalize_amount t.balance ∧
        c.id = t.id ∧ c.raw_data = t.raw_data ∧ c.cleaned_at = now ∧
        c.cleaning_version = "1.0") := by
  intro now t
  rw [clean_single_transaction_eq]
  refine ⟨?_, ?_, ?_⟩
  · constructor
    · intro h
      by_cases h1 : truthyS (normalize_date t.date) = true ∧
          truthyN (normalize_amount t.amount) = true
      · exact h1
      · exfalso
        apply h
        have : (truthyS (normalize_date t.date) && truthyN (normalize_amount t.amount)) = false := by
          rcases Bool.eq_false_or_eq_true (truthyS (normalize_date t.date)) with h2 | h2 <;>
            rcases Bool.eq_false_or_eq_true (truthyN (normalize_amount t.amount)) with h3 | h3 <;>
            simp [h2, h3] at h1 ⊢
        simp [this]
    · rintro ⟨h1, h2⟩
      simp [h1, h2]
  · rintro (h | h) <;> simp [h, normalize_date, normalize_amount, truthy, truthyS, truthyN]
  · intro c hc
    by_cases h1 : (truthyS (normalize_date t.date) && truthyN (normalize_amount t.amount)) = true
    · rw [if_pos h1] at hc
      cases hc
      exact ⟨rfl, rfl, rfl, rfl, rfl, rfl, rfl, rfl, rfl, rfl, rfl, rfl, rfl, rfl⟩
    · rw [if_neg h1] at hc
      cases hc

/-- Claim C2, witness: the sample raw record is emitted, and its emitted
fields are the normalized ones. -/
theorem c2_normalizer_emission_witness :
    clean_single_transaction "t0" rGoodRaw ≠ none :=
  (c2_normalizer_emission "t0" rGoodRaw).1.mpr (by decide)

/-- Claim C4, counterexample: classifying the same NormalizedRecord at two
different wall-clock instants yields ClassifiedRecords that are not
byte-identical — they differ in the `categorized_at` field, which is stamped
from `datetime.now()`. -/
theorem c4_byte_identical_counterexample :
    categorize_single_transaction "2024-01-01T00:00:00" rPayment ≠
    categorize_single_transaction "2024-01-01T00:00:01" rPayment := by decide

/-- Claim C4, amended: classification is deterministic up to the
`categorized_at` wall-clock stamp — for any two clock readings, classifying
the same NormalizedRecord yields records equal on every other field (in
particular the five derived labels). -/
theorem c4_label_determinism :
    ∀ (now1 now2 : String) (t : CleanedTxn),
      (categorize_single_transaction now1 t).map clearTime =
      (categorize_single_transaction now2 t).map clearTime := by
  intro now1 now2 t
  unfold categorize_single_transaction
  cases determine_category t <;> cases assess_risk_level t <;> simp [clearTime]

/-- Claim C10, counterexample to the error-counting clause: a record whose
amount normalizes to `0.0` with a valid date is excluded from the cleaning
output, but the stage's error list stays empty — it is logged, not counted.
The extractor likewise rejects a zero amount. -/
theorem c10_zero_amount_counterexample :
    normalize_amount rZero.amount = some 0 ∧ truthyS (normalize_date rZero.date) = true ∧
    clean_transactions "t0" [rZero] = ([], []) ∧
    pZero.amount = some 0 ∧ validate_transaction pZero = false := by decide

/-- Claim C10, amended: both required-fields checks test truthiness, so a
zero amount is rejected exactly like a missing one — the extractor's
validation fails, the normalizer emits `None` — and the record is excluded
from the stage's output; it is not appended to the stage's error list
(which only collects records that raised exceptions). -/
theorem c10_zero_amount_dropped :
    (∀ p : ParsedTxn, p.amount = some 0 → validate_transaction p = false) ∧
    (∀ (now : String) (t : RawTxn), normalize_amount t.amount = some 0 →
      clean_single_transaction now t = none) ∧
    (∀ (now : String) (ts : List RawTxn), (clean_transactions now ts).2 = []) := by
  refine ⟨?_, ?_, ?_⟩
  · intro p hp
    simp [validate_transaction, hp, truthyN]
  · intro now t ht
    rw [clean_single_transaction_eq, ht]
    simp [truthyN]
  · intro now ts
    rfl

/-- Claim C10, witness: the concrete zero-amount fragment and raw record are
rejected by both checks. -/
theorem c10_zero_amount_dropped_witness :
    validate_transaction pZero = false ∧ clean_single_transaction "t0" rZero = none :=
  ⟨c10_zero_amount_dropped.1 pZero (by decide),
   c10_zero_amount_dropped.2.1 "t0" rZero (by decide)⟩

/-- Score lists built from pointwise-equal score functions are equal. -/
theorem scoreFn_congr {order : List String} {f g : String → Nat}
    (h : ∀ c ∈ order, f c = g c) : scoreFn order f = scoreFn order g :=
  List.map_congr_left fun c hc => by rw [h c hc]

/-- A pointwise update leaves other keys untouched. -/
theorem fupd_ne {f : String → Nat} {k c : String} (n : Nat) (h : c ≠ k) :
    fupd f k n c = f c := if_neg h

/-- A pointwise update adds to the updated key. -/
theorem fupd_self (f : String → Nat) (k : String) (n : Nat) : fupd f k n k = f k + n :=
  if_pos rfl

/-- Bumping a key already present in the score list increments it in
place. -/
theorem bump_mem {order : List String} {f : String → Nat} {k : String} (n : Nat)
    (hk : k ∈ order) : bump (scoreFn order f) k n = scoreFn order (fupd f k n) := by
  have hany : ((scoreFn order f).any (fun p => p.1 == k)) = true :=
    List.any_eq_true.mpr ⟨(k, f k), List.mem_map.mpr ⟨k, hk, rfl⟩, by simp⟩
  simp only [bump, hany, if_true]
  unfold scoreFn
  rw [List.map_map]
  apply List.map_congr_left
  intro c _
  by_cases hck : c = k
  · subst hck
    simp [fupd]
  · simp [Function.comp, fupd, hck]

/-- Bumping a key absent from the score list (and scoreless so far) appends
it. -/
theorem bump_not_mem {order : List String} {f : String → Nat} {k : String} (n : Nat)
    (hk : k ∉ order) (h0 : f k = 0) :
    bump (scoreFn order f) k n = scoreFn (order ++ [k]) (fupd f k n) := by
  have hany : ((scoreFn order f).any (fun p => p.1 == k)) = false := by
    cases hx : (scoreFn order f).any (fun p => p.1 == k) with
    | false => rfl
    | true =>
      obtain ⟨p, hp, hpk⟩ := List.any_eq_true.mp hx
      obtain ⟨c, hc, rfl⟩ := List.mem_map.mp hp
      exact absurd (beq_iff_eq.mp hpk ▸ hc) hk
  simp only [bump, hany, Bool.false_eq_true, if_false]
  unfold scoreFn
  rw [List.map_append]
  congr 1
  · apply List.map_congr_left
    intro c hc
    have hck : c ≠ k := fun h => hk (h ▸ hc)
    simp [fupd, hck]
  · simp [fupd, h0]

/-- Keyword scoring of one category over a score list already containing
the category increments it by the number of matching keywords. -/
theorem kwBumpCat_mem {msg cat : String} {kws : List String} {order : List String}
    (hk : cat ∈ order) :
    ∀ f : String → Nat,
      kwBumpCat msg cat kws (scoreFn order f) =
        scoreFn order (fupd f cat (kws.countP (fun kw => containsSub msg (pyLower kw)))) := by
  induction kws with
  | nil =>
    intro f
    simp only [kwBumpCat, List.foldl_nil, List.countP_nil]
    apply scoreFn_congr
    intro c _
    by_cases hc : c = cat <;> simp [fupd, hc]
  | cons kw rest ih =>
    intro f
    have hstep : kwBumpCat msg cat (kw :: rest) (scoreFn order f) =
        kwBumpCat msg cat rest
          (if containsSub msg (pyLower kw) = true then bump (scoreFn order f) cat 1
           else scoreFn order f) := rfl
    rw [hstep]
    by_cases hP : containsSub msg (pyLower kw) = true
    · rw [if_pos hP, bump_mem 1 hk, ih (fupd f cat 1)]
      have hcnt : List.countP (fun kw => containsSub msg (pyLower kw)) (kw :: rest) =
          List.countP (fun kw => containsSub msg (pyLower kw)) rest + 1 := by
        simp [List.countP_cons, hP]
      rw [hcnt]
      apply scoreFn_congr
      intro c _
      by_cases hc : c = cat
      · subst hc
        simp only [fupd, if_pos]
        omega
      · simp [fupd, hc]
    · rw [if_neg hP, ih f]
      have hcnt : List.countP (fun kw => containsSub msg (pyLower kw)) (kw :: rest) =
          List.countP (fun kw => containsSub msg (pyLower kw)) rest := by
        simp [List.countP_cons, hP]
      rw [hcnt]

/-- Keyword scoring of a category absent from the score list leaves the
list unchanged when no keyword matches and otherwise appends the category
with its match count. -/
theorem kwBumpCat_not_mem {msg cat : String} {kws : List String} {order : List String}
    (hk : cat ∉ order) :
    ∀ f : String → Nat, f cat = 0 →
      kwBumpCat msg cat kws (scoreFn order f) =
        scoreFn (order ++ (if kws.countP (fun kw => containsSub msg (pyLower kw)) = 0
            then [] else [cat]))
          (fupd f cat (kws.countP (fun kw => containsSub msg (pyLower kw)))) := by
  induction kws with
  | nil =>
    intro f h0
    simp only [kwBumpCat, List.foldl_nil, List.countP_nil, if_pos, List.append_nil]
    apply scoreFn_congr
    intro c _
    by_cases hc : c = cat <;> simp [fupd, hc]
  | cons kw rest ih =>
    intro f h0
    have hstep : kwBumpCat msg cat (kw :: rest) (scoreFn order f) =
        kwBumpCat msg cat rest
          (if containsSub msg (pyLower kw) = true then bump (scoreFn order f) cat 1
           else scoreFn order f) := rfl
    rw [hstep]
    by_cases hP : containsSub msg (pyLower kw) = true
    · rw [if_pos hP, bump_not_mem 1 hk h0,
        kwBumpCat_mem (List.mem_append_right order (List.mem_singleton_self cat))]
      have hcnt : List.countP (fun kw => containsSub msg (pyLower kw)) (kw :: rest) =
          List.countP (fun kw => containsSub msg (pyLower kw)) rest + 1 := by
        simp [List.countP_cons, hP]
      rw [hcnt, if_neg (Nat.succ_ne_zero _)]
      apply scoreFn_congr
      intro c _
      by_cases hc : c = cat
      · subst hc
        simp only [fupd, if_pos]
        omega
      · simp [fupd, hc]
    · rw [if_neg hP, ih f h0]
      have hcnt : List.countP (fun kw => containsSub msg (pyLower kw)) (kw :: rest) =
          List.countP (fun kw => containsSub msg (pyLower kw)) rest := by
        simp [List.countP_cons, hP]
      rw [hcnt]

/-- The keyword pass over a category table with distinct, fresh names
appends every matched category with its keyword count, in table order, and
records the counts in the score function. -/
theorem keywordPass_table (msg : String) :
    ∀ (cats : List (String × List String)) (order : List String) (f : String → Nat),
      (∀ ck ∈ cats, ck.1 ∉ order) →
      (∀ ck ∈ cats, f ck.1 = 0) →
      (cats.map Prod.fst).Nodup →
      cats.foldl (fun sc ck => kwBumpCat msg ck.1 ck.2 sc) (scoreFn order f) =
        scoreFn
          (order ++ (cats.filter
            (fun ck => ck.2.countP (fun kw => containsSub msg (pyLower kw)) != 0)).map Prod.fst)
          (cats.foldl
            (fun g ck => fupd g ck.1 (ck.2.countP (fun kw => containsSub msg (pyLower kw)))) f) := by
  intro cats
  induction cats with
  | nil =>
    intro order f _ _ _
    simp
  | cons ck rest ih =>
    intro order f hdisj h0 hnodup
    have hk : ck.1 ∉ order := hdisj ck (List.mem_cons_self ck rest)
    have hf : f ck.1 = 0 := h0 ck (List.mem_cons_self ck rest)
    have hnd := List.nodup_cons.mp hnodup
    rw [List.foldl_cons, kwBumpCat_not_mem hk f hf]
    have hrest := ih
      (order ++ (if ck.2.countP (fun kw => containsSub msg (pyLower kw)) = 0
        then [] else [ck.1]))
      (fupd f ck.1 (ck.2.countP (fun kw => containsSub msg (pyLower kw))))
      (by
        intro ck' hck'
        have hne : ck'.1 ≠ ck.1 := by
          intro he
          exact hnd.1 (he ▸ List.mem_map.mpr ⟨ck', hck', rfl⟩)
        intro hmem
        rcases List.mem_append.mp hmem with h | h
        · exact hdisj ck' (List.mem_cons_of_mem ck hck') h
        · split at h
          · cases h
          · exact hne (List.mem_singleton.mp h))
      (by
        intro ck' hck'
        have hne : ck'.1 ≠ ck.1 := by
          intro he
          exact hnd.1 (he ▸ List.mem_map.mpr ⟨ck', hck', rfl⟩)
        rw [fupd_ne _ hne]
        exact h0 ck' (List.mem_cons_of_mem ck hck'))
      hnd.2
    rw [hrest]
    congr 1
    by_cases hzero : ck.2.countP (fun kw => containsSub msg (pyLower kw)) = 0
    · rw [if_pos hzero, List.append_nil]
      have hfc : List.filter
          (fun ck => ck.2.countP (fun kw => containsSub msg (pyLower kw)) != 0) (ck :: rest) =
          List.filter
            (fun ck => ck.2.countP (fun kw => containsSub msg (pyLower kw)) != 0) rest := by
        simp [List.filter_cons, hzero]
      rw [hfc]
    · rw [if_neg hzero]
      have hfc : List.filter
          (fun ck => ck.2.countP (fun kw => containsSub msg (pyLower kw)) != 0) (ck :: rest) =
          ck :: List.filter
            (fun ck => ck.2.countP (fun kw => containsSub msg (pyLower kw)) != 0) rest := by
        simp [List.filter_cons, hzero]
      rw [hfc, List.map_cons, List.append_assoc, List.singleton_append]

/-- Lookup misses keys that are not in the table. -/
theorem lookup_eq_none_of_not_mem {c : String} :
    ∀ cats : List (String × List String), c ∉ cats.map Prod.fst → cats.lookup c = none := by
  intro cats
  induction cats with
  | nil => intro _; rfl
  | cons ck rest ih =>
    intro h
    have h1 : ¬(c = ck.1) := fun he => h (by rw [List.map_cons]; exact he ▸ List.mem_cons_self _ _)
    have h2 : c ∉ rest.map Prod.fst := fun hm =>
      h (by rw [List.map_cons]; exact List.mem_cons_of_mem _ hm)
    have hb : (c == ck.1) = false := beq_eq_false_iff_ne.mpr h1
    have hskip : List.lookup c (ck :: rest) = List.lookup c rest := by
      simp only [List.lookup, hb]
    rw [hskip]
    exact ih h2

/-- Pointwise value of the folded score updates: the base value plus the
keyword count of the category's list (zero off the table). -/
theorem foldl_fupd_eval (msg : String) :
    ∀ (cats : List (String × List String)) (f : String → Nat) (c : String),
      (cats.map Prod.fst).Nodup →
      cats.foldl (fun g ck =>
        fupd g ck.1 (ck.2.countP (fun kw => containsSub msg (pyLower kw)))) f c =
      f c + ((cats.lookup c).getD []).countP (fun kw => containsSub msg (pyLower kw)) := by
  intro cats
  induction cats with
  | nil =>
    intro f c _
    simp [List.lookup]
  | cons ck rest ih =>
    intro f c hnd
    have hnd' := List.nodup_cons.mp hnd
    rw [List.foldl_cons, ih (fupd f ck.1 _) c hnd'.2]
    by_cases hc : c = ck.1
    · subst hc
      rw [fupd_self, lookup_eq_none_of_not_mem rest hnd'.1]
      have hself : List.lookup ck.1 (ck :: rest) = some ck.2 := by
        simp [List.lookup]
      rw [hself]
      simp
    · rw [fupd_ne _ hc]
      have hb : (c == ck.1) = false := beq_eq_false_iff_ne.mpr hc
      have hskip : List.lookup c (ck :: rest) = List.lookup c rest := by
        simp [List.lookup, hb]
      rw [hskip]

/-- The complete keyword pass from the empty score dict: the matched
categories in table order, scored by their keyword counts. -/
theorem keywordPass_eq (msg : String) :
    keywordPass msg [] =
      scoreFn (categoryNames.filter (fun c => specKwCount msg c != 0))
        (fun c => specKwCount msg c) := by
  have hl : keywordPass msg [] =
      TRANSACTION_CATEGORIES.foldl (fun sc ck => kwBumpCat msg ck.1 ck.2 sc)
        (scoreFn [] (fun _ => 0)) := rfl
  rw [hl, keywordPass_table msg TRANSACTION_CATEGORIES [] (fun _ => 0)
    (by intro ck _; simp) (fun _ _ => rfl) (by decide), List.nil_append]
  have horder : (TRANSACTION_CATEGORIES.filter
      (fun ck => ck.2.countP (fun kw => containsSub msg (pyLower kw)) != 0)).map Prod.fst =
      categoryNames.filter (fun c => specKwCount msg c != 0) := by
    have hnames : categoryNames.filter (fun c => specKwCount msg c != 0) =
        (TRANSACTION_CATEGORIES.map Prod.fst).filter (fun c => specKwCount msg c != 0) := rfl
    rw [hnames, List.filter_map]
    congr 1
  rw [horder]
  apply scoreFn_congr
  intro c _
  rw [foldl_fupd_eval msg TRANSACTION_CATEGORIES (fun _ => 0) c (by decide)]
  show 0 + _ = _
  rw [Nat.zero_add]
  rfl

/-- Effect of the merchant pass on a score list: `+2` on `"payment"`,
appended at the end when it had no score yet. -/
theorem merchant_step {phone : Option String} {order : List String} {f : String → Nat}
    (h0 : "payment" ∉ order → f "payment" = 0) :
    merchantPass phone (scoreFn order f) =
      scoreFn
        (order ++ (if is_merchant_phone phone ∧ "payment" ∉ order then ["payment"] else []))
        (fun c => f c + (if c = "payment" ∧ is_merchant_phone phone then 2 else 0)) := by
  unfold merchantPass
  by_cases hm : is_merchant_phone phone = true
  · rw [if_pos hm]
    by_cases hp : "payment" ∈ order
    · rw [bump_mem 2 hp]
      rw [if_neg (fun h => h.2 hp), List.append_nil]
      apply scoreFn_congr
      intro c _
      by_cases hc : c = "payment"
      · subst hc
        simp [fupd, hm]
      · simp [fupd, hc]
    · rw [bump_not_mem 2 hp (h0 hp)]
      rw [if_pos ⟨hm, hp⟩]
      apply scoreFn_congr
      intro c _
      by_cases hc : c = "payment"
      · subst hc
        simp [fupd, hm]
      · simp [fupd, hc]
  · rw [if_neg hm]
    rw [if_neg (fun h => hm h.1), List.append_nil]
    apply scoreFn_congr
    intro c _
    have hc : ¬(c = "payment" ∧ is_merchant_phone phone = true) := fun h => hm h.2
    simp [hc]

/-- Effect of the amount pass on a score list: the truthiness-guarded bonus
on `"deposit"` or `"transfer"`, appended at the end when scoreless. -/
theorem amount_step {amount : Option Rat} {order : List String} {f : String → Nat}
    (hd : "deposit" ∉ order → f "deposit" = 0)
    (ht : "transfer" ∉ order → f "transfer" = 0) :
    amountPass amount (scoreFn order f) =
      scoreFn (order ++ amountGain amount order)
        (fun c => f c + specAmountBonus amount c) := by
  cases amount with
  | none =>
    have hG : amountGain none order = [] := rfl
    have hL : amountPass none (scoreFn order f) = scoreFn order f := rfl
    rw [hL, hG, List.append_nil]
    apply scoreFn_congr
    intro c _
    simp [specAmountBonus]
  | some a =>
    by_cases hz : a = 0
    · have hL : amountPass (some a) (scoreFn order f) = scoreFn order f := by
        simp [amountPass, hz]
      have hG : amountGain (some a) order = [] := by simp [amountGain, hz]
      rw [hL, hG, List.append_nil]
      apply scoreFn_congr
      intro c _
      simp [specAmountBonus, hz]
    · by_cases hlt : a < 1000
      · have hL : amountPass (some a) (scoreFn order f) = bump (scoreFn order f) "deposit" 1 := by
          simp [amountPass, hz, hlt]
        by_cases hdm : "deposit" ∈ order
        · have hG : amountGain (some a) order = [] := by simp [amountGain, hz, hlt, hdm]
          rw [hL, hG, List.append_nil, bump_mem 1 hdm]
          apply scoreFn_congr
          intro c _
          by_cases hc : c = "deposit"
          · subst hc
            simp [fupd, specAmountBonus, hz, hlt]
          · simp [fupd, hc, specAmountBonus, hz, hlt]
        · have hG : amountGain (some a) order = ["deposit"] := by
            simp [amountGain, hz, hlt, hdm]
          rw [hL, hG, bump_not_mem 1 hdm (hd hdm)]
          apply scoreFn_congr
          intro c _
          by_cases hc : c = "deposit"
          · subst hc
            simp [fupd, specAmountBonus, hz, hlt]
          · simp [fupd, hc, specAmountBonus, hz, hlt]
      · by_cases hgt : a > 10000
        · have hL : amountPass (some a) (scoreFn order f) =
              bump (scoreFn order f) "transfer" 1 := by
            simp [amountPass, hz, hlt, hgt]
          by_cases htm : "transfer" ∈ order
          · have hG : amountGain (some a) order = [] := by
              simp [amountGain, hz, hlt, hgt, htm]
            rw [hL, hG, List.append_nil, bump_mem 1 htm]
            apply scoreFn_congr
            intro c _
            by_cases hc : c = "transfer"
            · subst hc
              simp [fupd, specAmountBonus, hz, hlt, hgt]
            · simp [fupd, hc, specAmountBonus, hz, hlt, hgt]
          · have hG : amountGain (some a) order = ["transfer"] := by
              simp [amountGain, hz, hlt, hgt, htm]
            rw [hL, hG, bump_not_mem 1 htm (ht htm)]
            apply scoreFn_congr
            intro c _
            by_cases hc : c = "transfer"
            · subst hc
              simp [fupd, specAmountBonus, hz, hlt, hgt]
            · simp [fupd, hc, specAmountBonus, hz, hlt, hgt]
        · have hL : amountPass (some a) (scoreFn order f) = scoreFn order f := by
            simp [amountPass, hz, hlt, hgt]
          have hG : amountGain (some a) order = [] := by simp [amountGain, hz, hlt, hgt]
          rw [hL, hG, List.append_nil]
          apply scoreFn_congr
          intro c _
          simp [specAmountBonus, hz, hlt, hgt]

/-- The three scoring passes produce exactly the gain-ordered score list of
the per-category total scores. -/
theorem scores_eq (msg : String) (phone : Option String) (amount : Option Rat) :
    amountPass amount (merchantPass phone (keywordPass msg [])) =
      scoreFn (gainOrder msg phone amount) (specScore msg phone amount) := by
  rw [keywordPass_eq]
  have hpay0 : "payment" ∉ categoryNames.filter (fun c => specKwCount msg c != 0) →
      (fun c => specKwCount msg c) "payment" = 0 := by
    intro h
    by_contra h0
    exact h (List.mem_filter.mpr ⟨by decide, by simpa using h0⟩)
  rw [merchant_step hpay0]
  have hd : "deposit" ∉ (categoryNames.filter (fun c => specKwCount msg c != 0) ++
      (if is_merchant_phone phone ∧
          "payment" ∉ categoryNames.filter (fun c => specKwCount msg c != 0)
        then ["payment"] else [])) →
      (fun c => (fun c => specKwCount msg c) c +
        (if c = "payment" ∧ is_merchant_phone phone then 2 else 0)) "deposit" = 0 := by
    intro h
    have h1 : "deposit" ∉ categoryNames.filter (fun c => specKwCount msg c != 0) :=
      fun hm => h (List.mem_append.mpr (Or.inl hm))
    have h2 : specKwCount msg "deposit" = 0 := by
      by_contra h0
      exact h1 (List.mem_filter.mpr ⟨by decide, by simpa using h0⟩)
    simp [h2]
  have ht : "transfer" ∉ (categoryNames.filter (fun c => specKwCount msg c != 0) ++
      (if is_merchant_phone phone ∧
          "payment" ∉ categoryNames.filter (fun c => specKwCount msg c != 0)
        then ["payment"] else [])) →
      (fun c => (fun c => specKwCount msg c) c +
        (if c = "payment" ∧ is_merchant_phone phone then 2 else 0)) "transfer" = 0 := by
    intro h
    have h1 : "transfer" ∉ categoryNames.filter (fun c => specKwCount msg c != 0) :=
      fun hm => h (List.mem_append.mpr (Or.inl hm))
    have h2 : specKwCount msg "transfer" = 0 := by
      by_contra h0
      exact h1 (List.mem_filter.mpr ⟨by decide, by simpa using h0⟩)
    simp [h2]
  rw [amount_step hd ht]
  rfl

/-- Pulling the base of a running maximum out front. -/
theorem foldr_natmax_shift (l : List Nat) (b : Nat) :
    l.foldr Nat.max b = Nat.max (l.foldr Nat.max 0) b := by
  induction l generalizing b with
  | nil => simp
  | cons n t ih =>
    simp only [List.foldr_cons]
    rw [ih]
    simp only [Nat.max_def]
    split_ifs <;> omega

/-- Python's `max(items, key=...)` scan kept as the first element attaining
the running maximum. -/
theorem foldl_pick (p : String × Nat) (l : List (String × Nat)) :
    some (l.foldl (fun best q => if q.2 > best.2 then q else best) p) =
      (p :: l).find? (fun q => q.2 == (l.map Prod.snd).foldr Nat.max p.2) := by
  induction l generalizing p with
  | nil => simp [List.find?]
  | cons q t ih =>
    simp only [List.foldl_cons, List.map_cons, List.foldr_cons]
    by_cases hgt : q.2 > p.2
    · rw [if_pos hgt, ih q]
      have hM : Nat.max q.2 ((t.map Prod.snd).foldr Nat.max p.2) =
          (t.map Prod.snd).foldr Nat.max q.2 := by
        rw [foldr_natmax_shift _ p.2, foldr_natmax_shift _ q.2]
        simp only [Nat.max_def]
        split_ifs <;> omega
      rw [hM]
      have hle : q.2 ≤ (t.map Prod.snd).foldr Nat.max q.2 := by
        rw [foldr_natmax_shift]
        exact Nat.le_max_right _ _
      have hne : p.2 ≠ (t.map Prod.snd).foldr Nat.max q.2 := by omega
      exact (List.find?_cons_of_neg _ (by simpa using hne)).symm
    · rw [if_neg hgt, ih p]
      have hle : p.2 ≤ (t.map Prod.snd).foldr Nat.max p.2 := by
        rw [foldr_natmax_shift]
        exact Nat.le_max_right _ _
      have hM : Nat.max q.2 ((t.map Prod.snd).foldr Nat.max p.2) =
          (t.map Prod.snd).foldr Nat.max p.2 :=
        Nat.max_eq_right (le_trans (by omega) hle)
      rw [hM]
      by_cases hp2 : p.2 = (t.map Prod.snd).foldr Nat.max p.2
      · rw [List.find?_cons_of_pos _ (by simpa using hp2),
          List.find?_cons_of_pos _ (by simpa using hp2)]
      · have hq2 : q.2 ≠ (t.map Prod.snd).foldr Nat.max p.2 := by omega
        rw [List.find?_cons_of_neg _ (by simpa using hp2),
          List.find?_cons_of_neg _ (by simpa using hp2),
          List.find?_cons_of_neg _ (by simpa using hq2)]

/-- The code's first-maximum selection over an insertion-ordered score list
is the first key, in insertion order, attaining the maximal score. -/
theorem firstMax_eq_find? (order : List String) (f : String → Nat) :
    firstMax (scoreFn order f) =
      order.find? (fun c => f c == (order.map f).foldr Nat.max 0) := by
  cases order with
  | nil => rfl
  | cons c rest =>
    have h := foldl_pick (c, f c) (scoreFn rest f)
    have hsnd : (scoreFn rest f).map Prod.snd = rest.map f := by
      unfold scoreFn
      rw [List.map_map]
      rfl
    rw [hsnd] at h
    have hM : (rest.map f).foldr Nat.max (f c) = ((c :: rest).map f).foldr Nat.max 0 := by
      rw [List.map_cons, List.foldr_cons, foldr_natmax_shift _ (f c)]
      simp only [Nat.max_def]
      split_ifs <;> omega
    rw [hM] at h
    have hfm : firstMax (scoreFn (c :: rest) f) =
        some (((scoreFn rest f).foldl
          (fun best q => if q.2 > best.2 then q else best) (c, f c)).1) := rfl
    rw [hfm]
    have h2 := congrArg (Option.map Prod.fst) h
    simp only [Option.map_some'] at h2
    rw [h2]
    have hcons : (c, f c) :: scoreFn rest f = scoreFn (c :: rest) f := rfl
    rw [hcons]
    have hfind : (scoreFn (c :: rest) f).find?
        (fun q => q.2 == ((c :: rest).map f).foldr Nat.max 0) =
        ((c :: rest).find? (fun x => f x == ((c :: rest).map f).foldr Nat.max 0)).map
          (fun x => (x, f x)) := by
      unfold scoreFn
      rw [List.find?_map]
      rfl
    rw [hfind, Option.map_map]
    have : (Prod.fst ∘ fun x => (x, f x)) = id := rfl
    rw [this, Option.map_id]
    rfl

/-- C5 (counterexample): the ATM withdrawal record `rAtm` (message
`"atm"`, amount `20000`, no explicit type) is categorized `"withdrawal"`
by the code, but the claim's table-order tie-break — `"transfer"` (amount
bonus) precedes `"withdrawal"` (keyword) in `TRANSACTION_CATEGORIES` —
predicts `"transfer"`. -/
theorem c5_tiebreak_counterexample :
    determine_category rAtm = some "withdrawal" ∧ claimCategory rAtm = some "transfer" := by
  constructor <;> decide

/-- C5: the derived category is the record's type verbatim when truthy and
not `"unknown"`; otherwise the highest-scoring category under the claimed
scoring rules (+1 per keyword of the category's list found in the
lower-cased message, +2 to `"payment"` on a merchant phone, +1 to
`"deposit"` below the small threshold, +1 to `"transfer"` above the large
threshold) — but ties are broken by the order in which categories first
gained a point (keyword-scored categories in table order, then the
merchant bonus, then the amount bonus), not by the category-table order,
and an empty score yields `"unknown"`. -/
theorem c5_category_formula (t : CleanedTxn) :
    determine_category t = specCategoryAmended t := by
  simp only [determine_category, specCategoryAmended]
  by_cases htype : (t.type != "" && t.type != "unknown") = true
  · rw [if_pos htype, if_pos htype]
  · rw [if_neg htype, if_neg htype]
    cases t.message with
    | none => rfl
    | some m =>
      simp only [Option.map_some']
      rw [scores_eq, firstMax_eq_find?]
      rcases hfind : (gainOrder (pyLower m) t.phone t.amount).find?
          (fun c => specScore (pyLower m) t.phone t.amount c ==
            ((gainOrder (pyLower m) t.phone t.amount).map
              (specScore (pyLower m) t.phone t.amount)).foldr Nat.max 0) with _ | c <;>
        simp only [hfind]

/-- Splitting a list's length by a predicate: the rows kept by the negated
filter plus the matching count give the whole length. -/
theorem length_filter_not_add {α : Type} (l : List α) (p : α → Bool) :
    (l.filter (fun x => !(p x))).length + l.countP p = l.length := by
  induction l with
  | nil => rfl
  | cons a t ih =>
    cases h : p a with
    | true =>
      have h1 : List.filter (fun x => !(p x)) (a :: t) = List.filter (fun x => !(p x)) t := by
        simp [List.filter_cons, h]
      have h2 : List.countP p (a :: t) = List.countP p t + 1 := by
        simp [List.countP_cons, h]
      rw [h1, h2, List.length_cons]
      omega
    | false =>
      have h1 : List.filter (fun x => !(p x)) (a :: t) =
          a :: List.filter (fun x => !(p x)) t := by
        simp [List.filter_cons, h]
      have h2 : List.countP p (a :: t) = List.countP p t := by
        simp [List.countP_cons, h]
      rw [h1, h2, List.length_cons, List.length_cons]
      omega

/-- Claim C3: upserting a record whose id already exists in the table
(uniquely, per the primary-key invariant) leaves the row count unchanged —
the stored row is replaced — and appends exactly one `"UPDATE"` audit
event; upserting a record with a fresh id grows the table by one row and
appends exactly one `"INSERT"` audit event.  The hypotheses on `date` and
`amount` are the NormalizedRecord invariant (both non-null), which keeps
the row clear of the schema's NOT NULL constraints. -/
theorem c3_upsert_audit :
    ∀ (st : DBState) (t : CatTxn) (i : String),
      (prepare_transaction_data t).id = some i →
      (prepare_transaction_data t).date ≠ none →
      (prepare_transaction_data t).amount ≠ none →
      (st.transactions.countP (fun r => sqlEq r.id (some i)) = 1 →
        (load_step st t).transactions.length = st.transactions.length ∧
        (load_step st t).audit = st.audit ++
          [{ action := "UPDATE", table_name := "transactions", record_id := some i,
             details := prepare_transaction_data t }]) ∧
      (st.transactions.countP (fun r => sqlEq r.id (some i)) = 0 →
        (load_step st t).transactions.length = st.transactions.length + 1 ∧
        (load_step st t).audit = st.audit ++
          [{ action := "INSERT", table_name := "transactions", record_id := some i,
             details := prepare_transaction_data t }]) := by
  intro st t i hid hdate hamount
  have hno : ¬((prepare_transaction_data t).date = none ∨
      (prepare_transaction_data t).amount = none) := by
    rintro (h | h)
    · exact hdate h
    · exact hamount h
  constructor
  · intro hcount
    have hpos : 0 < st.transactions.countP (fun r => sqlEq r.id (some i)) := by omega
    have hex : existsId st.transactions (some i) = true := by
      obtain ⟨a, ha, hpa⟩ := List.countP_pos_iff.mp hpos
      exact List.any_eq_true.mpr ⟨a, ha, hpa⟩
    constructor
    · simp only [load_step]
      rw [if_neg hno]
      simp only [insertOrReplace, hid]
      rw [List.length_append]
      have hsplit : (st.transactions.filter (fun x => !(sqlEq x.id (some i)))).length +
          st.transactions.countP (fun r => sqlEq r.id (some i)) = st.transactions.length :=
        length_filter_not_add st.transactions (fun r => sqlEq r.id (some i))
      have hone : ([prepare_transaction_data t] : List Row).length = 1 := rfl
      rw [hone]
      omega
    · simp only [load_step]
      rw [if_neg hno]
      simp only [hid, hex, Bool.not_true, Bool.false_eq_true, if_false]
  · intro hcount
    have hex : existsId st.transactions (some i) = false := by
      cases hx : st.transactions.any (fun r => sqlEq r.id (some i)) with
      | false => exact hx
      | true =>
        obtain ⟨a, ha, hpa⟩ := List.any_eq_true.mp hx
        have := List.countP_eq_zero.mp hcount a ha
        exact absurd hpa this
    constructor
    · simp only [load_step]
      rw [if_neg hno]
      simp only [insertOrReplace, List.length_append, hid]
      have hall : st.transactions.filter
          (fun r => !(sqlEq r.id (some i))) = st.transactions := by
        apply List.filter_eq_self.mpr
        intro r hr
        have := List.countP_eq_zero.mp hcount r hr
        simp [this]
      rw [hall]
      rfl
    · simp only [load_step]
      rw [if_neg hno]
      simp only [hid, hex, Bool.not_false, if_true]

/-- Claim C3, witness: on a store holding exactly the row of `tOld`,
upserting `tNew` (same id) keeps one row and appends one UPDATE event;
upserting `tFresh` (new id) grows the table and appends one INSERT event. -/
theorem c3_upsert_audit_witness :
    ((load_step st1 tNew).transactions.length = st1.transactions.length ∧
      (load_step st1 tNew).audit = st1.audit ++
        [{ action := "UPDATE", table_name := "transactions", record_id := some "TXN000001",
           details := prepare_transaction_data tNew }]) ∧
    ((load_step st1 tFresh).transactions.length = st1.transactions.length + 1 ∧
      (load_step st1 tFresh).audit = st1.audit ++
        [{ action := "INSERT", table_name := "transactions", record_id := some "TXN000002",
           details := prepare_transaction_data tFresh }]) :=
  ⟨(c3_upsert_audit st1 tNew "TXN000001" (by decide) (by decide) (by decide)).1 (by decide),
   (c3_upsert_audit st1 tFresh "TXN000002" (by decide) (by decide) (by decide)).2 (by decide)⟩

/-- Emitted cleaned records have truthy `date` and `amount`. -/
theorem clean_single_truthy {now : String} {t : RawTxn} {c : CleanedTxn}
    (h : clean_single_transaction now t = some c) :
    truthyS c.date = true ∧ truthyN c.amount = true := by
  rw [clean_single_transaction_eq] at h
  by_cases hcond : (truthyS (normalize_date t.date) && truthyN (normalize_amount t.amount)) = true
  · rw [if_pos hcond] at h
    obtain rfl := Option.some_inj.mp h
    rw [Bool.and_eq_true] at hcond
    exact hcond
  · rw [if_neg hcond] at h
    cases h

/-- Classification preserves the record's date. -/
theorem categorize_preserves_date {now : String} {c : CleanedTxn} {x : CatTxn}
    (h : categorize_single_transaction now c = some x) : x.date = c.date := by
  unfold categorize_single_transaction at h
  cases hdc : determine_category c with
  | none => rw [hdc] at h; exact Option.noConfusion h
  | some cat =>
    rw [hdc] at h
    cases hrl : assess_risk_level c with
    | none => rw [hrl] at h; exact Option.noConfusion h
    | some risk =>
      rw [hrl] at h
      obtain rfl := Option.some_inj.mp h
      rfl

/-- Rows of the loaded table come from the initial table or from prepared
input records. -/
theorem load_transactions_mem {l : List CatTxn} :
    ∀ (st : DBState) (row : Row), row ∈ (load_transactions st l).transactions →
      row ∈ st.transactions ∨ ∃ t ∈ l, row = prepare_transaction_data t := by
  induction l with
  | nil => exact fun st row h => Or.inl h
  | cons t rest ih =>
    intro st row h
    rcases ih (load_step st t) row h with h' | ⟨u, hu, hru⟩
    · simp only [load_step] at h'
      split at h'
      · exact Or.inl h'
      · simp only [insertOrReplace] at h'
        rcases List.mem_append.mp h' with h'' | h''
        · exact Or.inl (List.mem_of_mem_filter h'')
        · exact Or.inr ⟨t, List.mem_cons_self t rest, List.mem_singleton.mp h''⟩
    · exact Or.inr ⟨u, List.mem_cons_of_mem t hu, hru⟩

/-- Claim C7: a fragment whose date is absent is rejected by the extractor's
validation; a record whose date fails normalization is dropped by the
cleaner; and consequently every row the pipeline adds to the durable
transactions table carries a truthy date — no `amount`-only fragment ever
reaches the store. -/
theorem c7_no_dateless_record_stored :
    (∀ p : ParsedTxn, p.date = none → validate_transaction p = false) ∧
    (∀ (now : String) (t : RawTxn), normalize_date t.date = none →
      clean_single_transaction now t = none) ∧
    (∀ (now : String) (ts : List ParsedTxn) (st : DBState) (row : Row),
      row ∈ (pipeline now ts st).transactions →
      row ∈ st.transactions ∨ ∃ s, row.date = some s ∧ s ≠ "") := by
  refine ⟨?_, ?_, ?_⟩
  · intro p hp
    simp [validate_transaction, hp, truthyS]
  · intro now t ht
    rw [clean_single_transaction_eq, ht]
    simp [truthyS]
  · intro now ts st row hrow
    rcases load_transactions_mem st row hrow with h | ⟨u, hu, rfl⟩
    · exact Or.inl h
    · right
      obtain ⟨c, hc, hcu⟩ := List.mem_filterMap.mp hu
      obtain ⟨r, hr, hrc⟩ := List.mem_filterMap.mp hc
      have hdate := (clean_single_truthy hrc).1
      have hxdate := categorize_preserves_date hcu
      cases hd : c.date with
      | none =>
        rw [hd] at hdate
        exact absurd hdate (by simp [truthyS])
      | some s =>
        refine ⟨s, ?_, ?_⟩
        · show u.date = some s
          rw [hxdate, hd]
        · intro hs
          rw [hd, hs] at hdate
          exact absurd hdate (by simp [truthyS])

/-- Claim C7, witness: the dateless fragment is rejected, the
unparseable-date record is dropped, and the invariant instantiates on the
sample store. -/
theorem c7_no_dateless_record_stored_witness :
    validate_transaction pNoDate = false ∧
    clean_single_transaction "t0" rBadDate = none ∧
    (row1 ∈ st1.transactions ∨ ∃ s, row1.date = some s ∧ s ≠ "") :=
  ⟨c7_no_dateless_record_stored.1 pNoDate (by decide),
   c7_no_dateless_record_stored.2.1 "t0" rBadDate (by decide),
   c7_no_dateless_record_stored.2.2 "t0" [] st1 row1 (by decide)⟩

/-- Characters of a rebuilt string. -/
theorem chars_ofChars (cs : List Char) : chars (ofChars cs) = cs := rfl

/-- Rebuilding the characters of a string gives it back. -/
theorem ofChars_chars (s : String) : ofChars (chars s) = s := rfl

/-- Characters of an appended string. -/
theorem chars_append (s t : String) : chars (s ++ t) = chars s ++ chars t :=
  String.data_append s t

/-- Appending rebuilt strings rebuilds the appended lists. -/
theorem ofChars_append (a b : List Char) : ofChars a ++ ofChars b = ofChars (a ++ b) := rfl

/-- A string with a nonempty character list is nonempty. -/
theorem ne_empty_of_chars_ne_nil {s : String} (h : chars s ≠ []) : s ≠ "" := by
  intro he
  exact h (by rw [he]; rfl)

/-- `dropWhile` is the identity when no element satisfies the predicate. -/
theorem dropWhile_eq_self_of_all {p : Char → Bool} {cs : List Char}
    (h : ∀ c ∈ cs, p c = false) : cs.dropWhile p = cs := by
  cases cs with
  | nil => rfl
  | cons c t => simp [List.dropWhile_cons, h c (List.mem_cons_self c t)]

/-- Python `strip` is the identity on whitespace-free strings. -/
theorem pyStrip_eq_self {s : String} (h : ∀ c ∈ chars s, isPySpace c = false) :
    pyStrip s = s := by
  unfold pyStrip
  rw [dropWhile_eq_self_of_all h, dropWhile_eq_self_of_all, List.reverse_reverse,
    ofChars_chars]
  intro c hc
  exact h c (by simpa using hc)

/-- Whitespace characters are not kept by the amount-cleaning regex. -/
theorem space_not_amountChar {c : Char} (h : isPySpace c = true) : isAmountChar c = false := by
  simp only [isPySpace, Bool.or_eq_true, beq_iff_eq] at h
  rcases h with ((((h | h) | h) | h) | h) | h <;> subst h <;> decide

/-- Whitespace characters are not kept by the phone-cleaning regex. -/
theorem space_not_phoneChar {c : Char} (h : isPySpace c = true) : isPhoneChar c = false := by
  simp only [isPySpace, Bool.or_eq_true, beq_iff_eq] at h
  rcases h with ((((h | h) | h) | h) | h) | h <;> subst h <;> decide

/-- Every character of a stripped amount string is an amount character. -/
theorem amountChar_all_strip (s : String) : ∀ c ∈ chars (stripAmount s), isAmountChar c = true :=
  fun _ hc => (List.mem_filter.mp hc).2

/-- Every character of a stripped phone string is a phone character. -/
theorem phoneChar_all_strip (s : String) : ∀ c ∈ chars (stripPhone s), isPhoneChar c = true :=
  fun _ hc => (List.mem_filter.mp hc).2

/-- Amount-character strings carry no whitespace. -/
theorem no_space_of_amountChars {s : String} (h : ∀ c ∈ chars s, isAmountChar c = true) :
    ∀ c ∈ chars s, isPySpace c = false := by
  intro c hc
  cases hsp : isPySpace c with
  | false => rfl
  | true =>
    have := h c hc
    rw [space_not_amountChar hsp] at this
    exact absurd this (by simp)

/-- Phone-character strings carry no whitespace. -/
theorem no_space_of_phoneChars {s : String} (h : ∀ c ∈ chars s, isPhoneChar c = true) :
    ∀ c ∈ chars s, isPySpace c = false := by
  intro c hc
  cases hsp : isPySpace c with
  | false => rfl
  | true =>
    have := h c hc
    rw [space_not_phoneChar hsp] at this
    exact absurd this (by simp)

/-- A successfully parsed unsigned float magnitude is nonnegative (signs are
handled by the callers). -/
theorem pyFloatMag_nonneg {cs : List Char} {q : Rat} (h : pyFloatMag cs = some q) : 0 ≤ q := by
  simp only [pyFloatMag] at h
  split at h
  · cases h
    rw [Rat.mkRat_eq_div]
    positivity
  · cases h

/-- C6 (counterexample): the cleaned string of input `"--5"` starts with
`-`, yet the code returns the strictly positive `5.0`: the explicit
negation branch composes with `float`'s own acceptance of a signed
remainder, `-float("-5") = 5.0`. -/
theorem c6_sign_counterexample :
    pyStartsWith (stripAmount (pyStrip "--5")) "-" = true ∧
    normalize_amount (.vstr "--5") = some 5 := by
  constructor <;> decide

/-- C6 (amended): amount normalization parses `"$1,500.00"` to `1500.0` and
`"-500.00"` to `-500.0`; string inputs are reduced to their kept characters
(digits, `.`, `-`) before parsing; a kept leading `-` negates the float
parse of the remaining characters — a nonpositive result whenever no
further `-` remains, but a doubled leading minus yields the positive value,
since Python `float` itself accepts a signed remainder; and input on which
the float parse fails (directly, or after removing the leading `-`) yields
`None`. -/
theorem c6_amount_parsing :
    normalize_amount (.vstr "$1,500.00") = some 1500 ∧
    normalize_amount (.vstr "-500.00") = some (-500) ∧
    (∀ s : String, normalize_amount (.vstr s) =
      normalize_amount (.vstr (stripAmount (pyStrip s)))) ∧
    (∀ s : String, pyStartsWith (stripAmount (pyStrip s)) "-" = true →
      normalize_amount (.vstr s) =
        (pyFloat (strDrop (stripAmount (pyStrip s)) 1)).map (fun q => -q)) ∧
    (∀ (s : String) (q : Rat), pyStartsWith (stripAmount (pyStrip s)) "-" = true →
      (chars (strDrop (stripAmount (pyStrip s)) 1)).count '-' = 0 →
      normalize_amount (.vstr s) = some q → q ≤ 0) ∧
    (∀ s : String, pyFloat (stripAmount (pyStrip s)) = none →
      pyFloat (strDrop (stripAmount (pyStrip s)) 1) = none →
      normalize_amount (.vstr s) = none) := by
  refine ⟨by decide, by decide, ?_, ?_, ?_, ?_⟩
  · intro s
    have hall := amountChar_all_strip (pyStrip s)
    have hstrip : pyStrip (stripAmount (pyStrip s)) = stripAmount (pyStrip s) :=
      pyStrip_eq_self (no_space_of_amountChars hall)
    have hfix : stripAmount (stripAmount (pyStrip s)) = stripAmount (pyStrip s) := by
      have hall' : ∀ c ∈ List.filter isAmountChar (chars (pyStrip s)), isAmountChar c = true :=
        hall
      unfold stripAmount
      rw [chars_ofChars]
      exact congrArg ofChars (List.filter_eq_self.mpr hall')
    simp only [normalize_amount]
    rw [hstrip, hfix]
  · intro s hneg
    simp only [normalize_amount]
    rw [if_pos hneg]
  · intro s q hneg hcount h
    have heq : normalize_amount (.vstr s) =
        (pyFloat (strDrop (stripAmount (pyStrip s)) 1)).map (fun q => -q) := by
      simp only [normalize_amount]
      rw [if_pos hneg]
    rw [heq] at h
    obtain ⟨q', hq', hval⟩ := Option.map_eq_some'.mp h
    have hmem : '-' ∉ chars (strDrop (stripAmount (pyStrip s)) 1) :=
      List.count_eq_zero.mp hcount
    have hsw : pyStartsWith (strDrop (stripAmount (pyStrip s)) 1) "-" = false := by
      cases hb : pyStartsWith (strDrop (stripAmount (pyStrip s)) 1) "-" with
      | false => rfl
      | true =>
        exact absurd ((List.isPrefixOf_iff_prefix.mp hb).subset (by decide)) hmem
    simp only [pyFloat] at hq'
    rw [hsw] at hq'
    rw [if_neg Bool.false_ne_true] at hq'
    have := pyFloatMag_nonneg hq'
    rw [← hval]
    linarith
  · intro s h1 h2
    simp only [normalize_amount]
    split
    · rw [h2]; rfl
    · exact h1

/-- Claim C6, witness: the negation-formula and sign clauses at `"-500.00"`
and the null clause at an all-letter input. -/
theorem c6_amount_parsing_witness :
    normalize_amount (.vstr "-500.00") =
      (pyFloat (strDrop (stripAmount (pyStrip "-500.00")) 1)).map (fun q => -q) ∧
    ((-500 : Rat) ≤ 0) ∧
    normalize_amount (.vstr "no amount here") = none :=
  ⟨c6_amount_parsing.2.2.2.1 "-500.00" (by decide),
   c6_amount_parsing.2.2.2.2.1 "-500.00" (-500) (by decide) (by decide) (by decide),
   c6_amount_parsing.2.2.2.2.2 "no amount here" (by decide) (by decide)⟩

/-- A string starting with a prefix decomposes as the prefix plus the rest. -/
theorem startsWith_decomp {s pre : String} (h : pyStartsWith s pre = true) :
    s = pre ++ strDrop s (chars pre).length := by
  obtain ⟨t, ht⟩ := List.isPrefixOf_iff_prefix.mp h
  have hs : chars s = chars pre ++ t := ht.symm
  have hdrop : strDrop s (chars pre).length = ofChars t := by
    unfold strDrop
    rw [hs, List.drop_left]
  rw [hdrop]
  conv_lhs => rw [← ofChars_chars s, hs]
  conv_rhs => rw [← ofChars_chars pre]
  rw [ofChars_append]

/-- Every prefix of the dial code shape keeps the rebuilt string nonempty. -/
theorem plus250_append_ne_empty (r : String) : COUNTRY_DIAL_CODE ++ r ≠ "" := by
  apply ne_empty_of_chars_ne_nil
  rw [chars_append]
  simp [COUNTRY_DIAL_CODE, chars]

/-- A string always starts with itself followed by anything. -/
theorem pyStartsWith_append_self (pre r : String) : pyStartsWith (pre ++ r) pre = true := by
  unfold pyStartsWith
  rw [chars_append]
  exact List.isPrefixOf_iff_prefix.mpr (List.prefix_append _ _)

/-- The phone normalizer returns any `"+250"`-prefixed digit-and-plus string
unchanged: such a string is truthy, whitespace-free, invariant under the
phone-character filter, and taken by the first branch. -/
theorem normalize_phone_plus250 {r : String} (hr : ∀ c ∈ chars r, isPhoneChar c = true) :
    normalize_phone (.vstr (COUNTRY_DIAL_CODE ++ r)) = some (COUNTRY_DIAL_CODE ++ r) := by
  have hall : ∀ c ∈ chars (COUNTRY_DIAL_CODE ++ r), isPhoneChar c = true := by
    intro c hc
    rw [chars_append] at hc
    rcases List.mem_append.mp hc with h | h
    · have h' : c ∈ ("+250" : String).data := h
      have h4 : c = '+' ∨ c = '2' ∨ c = '5' ∨ c = '0' := by simpa using h'
      rcases h4 with h | h | h | h <;> subst h <;> decide
    · exact hr c h
  have hne : COUNTRY_DIAL_CODE ++ r ≠ "" := plus250_append_ne_empty r
  have hstrip : pyStrip (COUNTRY_DIAL_CODE ++ r) = COUNTRY_DIAL_CODE ++ r :=
    pyStrip_eq_self (no_space_of_phoneChars hall)
  have hfilter : stripPhone (COUNTRY_DIAL_CODE ++ r) = COUNTRY_DIAL_CODE ++ r := by
    unfold stripPhone
    rw [List.filter_eq_self.mpr hall, ofChars_chars]
  simp only [normalize_phone, pyStr, truthy]
  rw [hstrip, hfilter]
  simp [hne, pyStartsWith_append_self]

/-- Claim C8: phone normalization returns canonical (`"+250"`-prefixed,
all-digit) numbers unchanged, and every non-null output renormalizes to
itself, so normalization is idempotent wherever it succeeds. -/
theorem c8_phone_idempotent :
    (∀ d : String, (chars d).all Char.isDigit = true →
      normalize_phone (.vstr (COUNTRY_DIAL_CODE ++ d)) = some (COUNTRY_DIAL_CODE ++ d)) ∧
    (∀ (v : Value) (q : String), normalize_phone v = some q →
      normalize_phone (.vstr q) = some q) := by
  constructor
  · intro d hd
    apply normalize_phone_plus250
    intro c hc
    have := List.all_eq_true.mp hd c hc
    simp [isPhoneChar, this]
  · intro v q h
    simp only [normalize_phone] at h
    split at h
    · cases h
    · set cleaned := stripPhone (pyStrip (pyStr v)) with hcl
      have hall : ∀ c ∈ chars cleaned, isPhoneChar c = true := phoneChar_all_strip _
      have hdropAll : ∀ n, ∀ c ∈ chars (strDrop cleaned n), isPhoneChar c = true := by
        intro n c hc
        exact hall c (List.mem_of_mem_drop hc)
      split_ifs at h with b1 b2 b3 b4 b5
      · have hq : q = cleaned := (Option.some_inj.mp h).symm
        subst hq
        rw [startsWith_decomp b1]
        exact normalize_phone_plus250 (hdropAll _)
      · have hq : q = "+" ++ cleaned := (Option.some_inj.mp h).symm
        subst hq
        have hdec : ("+" : String) ++ cleaned =
            COUNTRY_DIAL_CODE ++ strDrop cleaned (chars (lstripPlus COUNTRY_DIAL_CODE)).length := by
          conv_lhs => rw [startsWith_decomp b2]
          rw [← String.append_assoc,
            show ("+" : String) ++ lstripPlus COUNTRY_DIAL_CODE = COUNTRY_DIAL_CODE from by decide]
        rw [hdec]
        exact normalize_phone_plus250 (hdropAll _)
      · have hq : q = COUNTRY_DIAL_CODE ++ strDrop cleaned 1 := (Option.some_inj.mp h).symm
        subst hq
        exact normalize_phone_plus250 (hdropAll 1)
      · have hq : q = COUNTRY_DIAL_CODE ++ cleaned := (Option.some_inj.mp h).symm
        subst hq
        exact normalize_phone_plus250 hall
      · have hq : q = COUNTRY_DIAL_CODE ++ strDrop cleaned 1 := (Option.some_inj.mp h).symm
        subst hq
        exact normalize_phone_plus250 (hdropAll 1)

/-- Branch evaluation of the phone normalizer on a nonempty string that is
already whitespace-free and phone-character-clean (so stripping and
filtering are the identity). -/
theorem normalize_phone_clean_eval {s : String} (h1 : s ≠ "")
    (hall : ∀ c ∈ chars s, isPhoneChar c = true) :
    normalize_phone (.vstr s) =
      (if pyStartsWith s COUNTRY_DIAL_CODE then some s
       else if pyStartsWith s (lstripPlus COUNTRY_DIAL_CODE) then some ("+" ++ s)
       else if pyStartsWith s "0" then some (COUNTRY_DIAL_CODE ++ strDrop s 1)
       else if s.length = 9 then some (COUNTRY_DIAL_CODE ++ s)
       else if s.length = 10 ∧ pyStartsWith s "0" = true then
         some (COUNTRY_DIAL_CODE ++ strDrop s 1)
       else none) := by
  have hstrip := pyStrip_eq_self (no_space_of_phoneChars hall)
  have hfilter : stripPhone s = s := by
    unfold stripPhone
    rw [List.filter_eq_self.mpr hall, ofChars_chars]
  simp only [normalize_phone, pyStr, truthy]
  rw [hstrip, hfilter]
  simp [h1]

/-- Claim C9, counterexample: the six-character domestic phone `"012345"` is
rewritten by the extractor to the nine-character `"+23312345"`, which the
normalizer maps not to null but through its nine-character fallback to the
malformed `"+250+23312345"`. -/
theorem c9_zero_prefix_counterexample :
    extract_phone (some "012345") = some "+23312345" ∧
    normalize_phone (.vstr "+23312345") = some "+250+23312345" ∧
    normalize_phone (.vstr "+23312345") ≠ none := by decide

/-- Claim C9, amended: every raw phone whose cleaned string starts with `0`
is rewritten by the extractor to `"+233"` plus the remaining cleaned
characters; the normalizer maps the rewritten string to null — matching no
`"+250"` shape — except when it is exactly nine characters long (six-char
raw phone), in which case the nine-digit fallback prepends `"+250"` to the
whole `"+233…"` string. -/
theorem c9_zero_prefix_phone :
    ∀ s : String, pyStartsWith (stripPhone s) "0" = true →
      extract_phone (some s) = some ("+233" ++ strDrop (stripPhone s) 1) ∧
      (("+233" ++ strDrop (stripPhone s) 1).length ≠ 9 →
        normalize_phone (.vstr ("+233" ++ strDrop (stripPhone s) 1)) = none) ∧
      (("+233" ++ strDrop (stripPhone s) 1).length = 9 →
        normalize_phone (.vstr ("+233" ++ strDrop (stripPhone s) 1)) =
          some (COUNTRY_DIAL_CODE ++ ("+233" ++ strDrop (stripPhone s) 1))) := by
  intro s h0
  have hne : ("+233" ++ strDrop (stripPhone s) 1) ≠ "" := by
    apply ne_empty_of_chars_ne_nil
    rw [chars_append]
    show ('+' :: '2' :: '3' :: '3' :: chars (strDrop (stripPhone s) 1)) ≠ []
    simp
  have hall : ∀ c ∈ chars ("+233" ++ strDrop (stripPhone s) 1), isPhoneChar c = true := by
    intro c hc
    rw [chars_append] at hc
    rcases List.mem_append.mp hc with h | h
    · have h' : c ∈ ("+233" : String).data := h
      have h4 : c = '+' ∨ c = '2' ∨ c = '3' ∨ c = '3' := by simpa using h'
      rcases h4 with h | h | h | h <;> subst h <;> decide
    · exact phoneChar_all_strip s c (List.mem_of_mem_drop h)
  have heval := normalize_phone_clean_eval hne hall
  have hb1 : pyStartsWith ("+233" ++ strDrop (stripPhone s) 1) COUNTRY_DIAL_CODE = false := by
    unfold pyStartsWith
    rw [chars_append]
    show List.isPrefixOf ['+', '2', '5', '0']
      ('+' :: '2' :: '3' :: '3' :: chars (strDrop (stripPhone s) 1)) = false
    simp [List.isPrefixOf]
  have hb2 : pyStartsWith ("+233" ++ strDrop (stripPhone s) 1)
      (lstripPlus COUNTRY_DIAL_CODE) = false := by
    unfold pyStartsWith
    rw [chars_append]
    show List.isPrefixOf ['2', '5', '0']
      ('+' :: '2' :: '3' :: '3' :: chars (strDrop (stripPhone s) 1)) = false
    simp [List.isPrefixOf]
  have hb3 : pyStartsWith ("+233" ++ strDrop (stripPhone s) 1) "0" = false := by
    unfold pyStartsWith
    rw [chars_append]
    show List.isPrefixOf ['0']
      ('+' :: '2' :: '3' :: '3' :: chars (strDrop (stripPhone s) 1)) = false
    simp [List.isPrefixOf]
  refine ⟨?_, ?_, ?_⟩
  · simp only [extract_phone]
    rw [if_pos h0, if_neg hne]
  · intro hlen
    rw [heval, hb1, hb2, hb3]
    simp only [Bool.false_eq_true, if_false]
    rw [if_neg hlen]
    simp
  · intro hlen
    rw [heval, hb1, hb2, hb3]
    simp only [Bool.false_eq_true, if_false]
    rw [if_pos hlen]

/-- Claim C9, witness: the usual ten-digit domestic phone `"0241234567"` is
rewritten to `"+233241234567"` and then normalized to null; the
six-character phone `"012345"` takes the nine-character escape hatch. -/
theorem c9_zero_prefix_phone_witness :
    normalize_phone (.vstr ("+233" ++ strDrop (stripPhone "0241234567") 1)) = none ∧
    normalize_phone (.vstr ("+233" ++ strDrop (stripPhone "012345") 1)) =
      some (COUNTRY_DIAL_CODE ++ ("+233" ++ strDrop (stripPhone "012345") 1)) :=
  ⟨(c9_zero_prefix_phone "0241234567" (by decide)).2.1 (by decide),
   (c9_zero_prefix_phone "012345" (by decide)).2.2 (by decide)⟩

/-- Claim C8, witness: the canonical number `"+250241234567"` is returned
unchanged, and renormalizing the output for `"0241234567"` returns it
unchanged. -/
theorem c8_phone_idempotent_witness :
    normalize_phone (.vstr ("+250" ++ "241234567")) = some ("+250" ++ "241234567") ∧
    normalize_phone (.vstr "+250241234567") = some "+250241234567" :=
  ⟨c8_phone_idempotent.1 "241234567" (by decide),
   c8_phone_idempotent.2 (.vstr "0241234567") "+250241234567" (by decide)⟩
